import Mathlib

/-!
Verification of the EQEmu script-builder core (`src/EQemu_script_builder_v1.2.py`):
the plugin-template renderer, the Perl code generator, the line-oriented reverse
parser, and the validation engine.  Python strings are modelled as `List Char`;
Python dicts of block parameters as insertion-ordered association lists; code
that can raise is modelled with `Except`.  All definitions are executable.
-/

namespace EQemu

/-- Python `str` is modelled as a list of characters. -/
abbrev Str := List Char

/-- Convert a Lean string literal to the character-list model. -/
def S (s : String) : Str := s.toList

/-- The Python whitespace set, shared by `str.strip()`, `str.isspace()` and
regex `\s` on `str` patterns: the ASCII spaces, the separator controls
`\x1c`-`\x1f`, NEL, NBSP, and the Unicode space/line/paragraph separators. -/
def isPySpace (c : Char) : Bool :=
  c = ' ' || c = '\t' || c = '\n' || c = '\r' || c = '\u000B' || c = '\u000C' ||
  c = '\u001C' || c = '\u001D' || c = '\u001E' || c = '\u001F' || c = '\u0085' ||
  c = '\u00A0' || c = '\u1680' || ('\u2000' ≤ c && c ≤ '\u200A') ||
  c = '\u2028' || c = '\u2029' || c = '\u202F' || c = '\u205F' || c = '\u3000'

/-- Regex `\w` over ASCII: letters, digits, underscore. -/
def isWordChar (c : Char) : Bool :=
  ('a' ≤ c && c ≤ 'z') || ('A' ≤ c && c ≤ 'Z') || ('0' ≤ c && c ≤ '9') || c = '_'

/-- Regex `[A-Za-z_]`: the first character of a placeholder identifier. -/
def isIdentStart (c : Char) : Bool :=
  ('a' ≤ c && c ≤ 'z') || ('A' ≤ c && c ≤ 'Z') || c = '_'

/-- Regex `[0-9]`. -/
def isDigitChar (c : Char) : Bool := '0' ≤ c && c ≤ '9'

/-- Python `str.lstrip()` (default whitespace). -/
def pyLstrip (s : Str) : Str := s.dropWhile isPySpace

/-- Python `str.rstrip()` (default whitespace). -/
def pyRstrip (s : Str) : Str := (s.reverse.dropWhile isPySpace).reverse

/-- Python `str.strip()` (default whitespace). -/
def pyStrip (s : Str) : Str := pyLstrip (pyRstrip s)

/-- Python `str.lstrip("#")`: drop all leading `#` characters. -/
def lstripHash (s : Str) : Str := s.dropWhile (fun c => c = '#')

/-- Python `str.rstrip("\n")`: drop all trailing newline characters. -/
def rstripNewline (s : Str) : Str := (s.reverse.dropWhile (fun c => c = '\n')).reverse

/-- Match a literal prefix; on success return the remaining suffix. -/
def expectLit : Str → Str → Option Str
  | [], s => some s
  | _ :: _, [] => none
  | c :: cs, d :: ds => if c = d then expectLit cs ds else none

/-- Python `pat in s` (substring containment). -/
def containsSub (pat : Str) : Str → Bool
  | [] => pat.isPrefixOf []
  | c :: cs => pat.isPrefixOf (c :: cs) || containsSub pat cs

/-- Python `s.split(pat, 1)[1]`: the text after the first occurrence of `pat`,
when an occurrence exists. -/
def afterFirstSub (pat : Str) : Str → Option Str
  | [] => if pat.isPrefixOf [] then some [] else none
  | c :: cs =>
    if pat.isPrefixOf (c :: cs) then some ((c :: cs).drop pat.length)
    else afterFirstSub pat cs

/-- Split a string at the rightmost occurrence of `pat`: `some (pre, post)`
with the original string equal to `pre ++ pat ++ post`.  Used to model a
greedy `(.*)` capture followed by a literal tail in an unanchored regex. -/
def findLastSplit (pat : Str) : Str → Option (Str × Str)
  | [] => if pat.isPrefixOf [] then some ([], []) else none
  | c :: cs =>
    match findLastSplit pat cs with
    | some (p, q) => some (c :: p, q)
    | none =>
      if pat.isPrefixOf (c :: cs) then some ([], (c :: cs).drop pat.length)
      else none

/-- The line-boundary characters of Python `str.splitlines()`: `\n`, `\r`,
vertical tab, form feed, the file/group/record separators, NEL, and the
Unicode line/paragraph separators. -/
def isLineBreak (c : Char) : Bool :=
  c = '\n' || c = '\r' || c = '\u000B' || c = '\u000C' ||
  c = '\u001C' || c = '\u001D' || c = '\u001E' || c = '\u0085' ||
  c = '\u2028' || c = '\u2029'

/-- Python `str.splitlines()`: every line-boundary character splits, `\r\n`
counts as a single boundary, and a trailing boundary does not produce a
final empty line. -/
def splitlinesAux : Str → Str → List Str
  | acc, [] => [acc.reverse]
  | acc, c :: t =>
    if isLineBreak c then
      match t with
      | [] => [acc.reverse]
      | d :: u =>
        if c = '\r' && d = '\n' then
          match u with
          | [] => [acc.reverse]
          | _ :: _ => acc.reverse :: splitlinesAux [] u
        else acc.reverse :: splitlinesAux [] (d :: u)
    else splitlinesAux (c :: acc) t

/-- Python `str.splitlines()`. -/
def pySplitlines (s : Str) : List Str :=
  if s = [] then [] else splitlinesAux [] s

/-- Python `"\n".join(lines)`. -/
def joinLines (ls : List Str) : Str := List.intercalate ['\n'] ls

/-- Decimal digits of a natural number. -/
def natToChars (n : Nat) : Str := Nat.toDigits 10 n

/-- Python `str(int)`. -/
def intToChars (i : Int) : Str :=
  if i < 0 then '-' :: natToChars i.natAbs else natToChars i.natAbs

/-- Numeric value of a digit string. -/
def digitsVal (ds : Str) : Nat := ds.foldl (fun a c => a * 10 + (c.toNat - 48)) 0

/-- Digits-and-underscores body of a Python integer literal: nonempty, starts
and ends with a digit, underscores only singly between digits. -/
def validIntBody : Str → Bool
  | [] => false
  | c :: cs =>
    isDigitChar c &&
    (cs.all (fun d => isDigitChar d || d = '_')) &&
    (match cs.getLast? with
     | some l => isDigitChar l
     | none => true) &&
    !(containsSub (S "__") (c :: cs))

/-- Python `int(s)` on a string: optional surrounding whitespace and sign,
then digits with single underscores allowed between digits. -/
def pyIntOfStr (s : Str) : Option Int :=
  let t := pyStrip s
  match t with
  | '+' :: u => if validIntBody u then some (Int.ofNat (digitsVal (u.filter isDigitChar))) else none
  | '-' :: u => if validIntBody u then some (-(Int.ofNat (digitsVal (u.filter isDigitChar)))) else none
  | u => if validIntBody u then some (Int.ofNat (digitsVal (u.filter isDigitChar))) else none

/-- Python `str.isdigit()`-style check used by the parser: all characters
are ASCII digits and the string is nonempty. -/
def allDigits (s : Str) : Bool := s ≠ [] && s.all isDigitChar

/-- The opening brace character (ASCII 123). -/
def obr : Char := '\x7b'

/-- The closing brace character (ASCII 125). -/
def cbr : Char := '\x7d'

/-! ## Data model

`PValue` models the Python values stored in a block's `params` dict:
strings, ints, nested dicts (`plugin_params`), and `None`. -/

inductive PValue where
  | str (s : Str)
  | int (i : Int)
  | dict (kvs : List (Str × PValue))
  | pynone

/-- Python truthiness of a parameter value (`if not pid: ...` etc.). -/
def truthy : PValue → Bool
  | .str s => !s.isEmpty
  | .int i => i ≠ 0
  | .dict kvs => !kvs.isEmpty
  | .pynone => false

/-- Python `repr` of an atomic value (nested dictionaries abbreviated; the
program never stringifies a dict-valued parameter). -/
def reprAtom : PValue → Str
  | .str s => '\'' :: s ++ ['\'']
  | .int i => intToChars i
  | .pynone => S "None"
  | .dict _ => S "..."

/-- Python `str(value)` for a parameter value. -/
def pyStrOfValue : PValue → Str
  | .str s => s
  | .int i => intToChars i
  | .pynone => S "None"
  | .dict kvs =>
    obr :: List.intercalate (S ", ")
      (kvs.map (fun kv => reprAtom (.str kv.1) ++ S ": " ++ reprAtom kv.2)) ++ [cbr]

/-- Python `int(value)`; `Option.none` models the raised exception. -/
def pyIntOfValue : PValue → Option Int
  | .int i => some i
  | .str s => pyIntOfStr s
  | _ => none

/-- Lookup in an insertion-ordered association list (Python `dict`). -/
def assocGet : List (Str × PValue) → Str → Option PValue
  | [], _ => none
  | (k, v) :: rest, key => if k = key then some v else assocGet rest key

/-- Python `params.get(key, default)`. -/
def getParam (ps : List (Str × PValue)) (key : Str) (d : PValue) : PValue :=
  match assocGet ps key with
  | some v => v
  | none => d

/-- One node of the script tree (`class Block`): a kind tag, a display label,
a parameter dict and ordered children. -/
inductive Block where
  | mk (ty : Str) (label : Str) (params : List (Str × PValue)) (children : List Block)

def Block.ty : Block → Str
  | .mk t _ _ _ => t

def Block.label : Block → Str
  | .mk _ l _ _ => l

def Block.params : Block → List (Str × PValue)
  | .mk _ _ p _ => p

def Block.children : Block → List Block
  | .mk _ _ _ c => c

/-- `class PluginDef`.  The source stores `params` as a list of dicts with
`name`/`label`/`type`/`default` keys; the transcoder consults only the
`name` field of each entry, so the model keeps the ordered name list. -/
structure PluginDef where
  plugin_id : Str
  name : Str
  category : Str
  perl_template : Str
  params : List Str

/-- `class PluginRegistry`: an id-keyed, insertion-ordered plugin table. -/
structure PluginRegistry where
  plugins : List (Str × PluginDef)

/-- `PluginRegistry.get`. -/
def PluginRegistry.get (r : PluginRegistry) (pid : Str) : Option PluginDef :=
  (r.plugins.find? (fun kv => decide (kv.1 = pid))).map Prod.snd

/-- Case-insensitive lexicographic key used by `list_plugins`. -/
def lowerStr (s : Str) : Str := s.map Char.toLower

/-- Lexicographic `≤` on character lists (Python string comparison). -/
def strLe : Str → Str → Bool
  | [], _ => true
  | _ :: _, [] => false
  | a :: as, b :: bs => if a = b then strLe as bs else decide (a < b)

/-- Stable insertion used to model Python's stable `sorted`. -/
def insSorted (x : PluginDef) : List PluginDef → List PluginDef
  | [] => [x]
  | y :: ys =>
    if strLe (lowerStr y.name) (lowerStr x.name) then y :: insSorted x ys
    else x :: y :: ys

/-- `PluginRegistry.list_plugins`: plugins sorted by display name,
case-insensitively, stably. -/
def PluginRegistry.list_plugins (r : PluginRegistry) : List PluginDef :=
  (r.plugins.map Prod.snd).foldl (fun acc p => insSorted p acc) []

/-! ## Template renderer (`render_plugin_template`)

The Python renderer is `_PLACEHOLDER_RE.sub(repl, template)` with pattern
`\{([A-Za-z_]\w*)\}` and a `repl` that raises on a missing parameter and
stringifies the value (empty string for `None`).  The regex substitution is
compiled to a single left-to-right scan: after an opening brace the scanner
accumulates word characters; a closing brace after a valid identifier is a
placeholder occurrence, anything else re-emits the scanned text verbatim. -/

/-- A valid placeholder name: `[A-Za-z_]\w*`. -/
def validPhName : Str → Bool
  | [] => false
  | c :: cs => isIdentStart c && cs.all isWordChar

/-- `str(val)` with the renderer's `None ↦ ""` rule. -/
def pyStrOrEmpty : PValue → Str
  | .pynone => []
  | v => pyStrOfValue v

/-- Scanner for the placeholder substitution.  The first argument is `some acc`
while inside a potential placeholder (chars seen since the opening brace),
`Option.none` in plain text. -/
def renderAux (params : List (Str × PValue)) : Option Str → Str → Except Str Str
  | Option.none, [] => .ok []
  | some acc, [] => .ok (obr :: acc)
  | Option.none, c :: rest =>
    if c = obr then renderAux params (some []) rest
    else (fun out => c :: out) <$> renderAux params Option.none rest
  | some acc, c :: rest =>
    if c = cbr then
      if validPhName acc then
        match assocGet params acc with
        | some v => (fun out => pyStrOrEmpty v ++ out) <$> renderAux params Option.none rest
        | Option.none => .error acc
      else (fun out => obr :: acc ++ cbr :: out) <$> renderAux params Option.none rest
    else if isWordChar c then renderAux params (some (acc ++ [c])) rest
    else if c = obr then (fun out => obr :: acc ++ out) <$> renderAux params (some []) rest
    else (fun out => obr :: acc ++ c :: out) <$> renderAux params Option.none rest

/-- `render_plugin_template(template, params)`: replace every `\{name\}`
placeholder, raising (modelled by `.error name`) on a missing parameter. -/
def render_plugin_template (template : Str) (params : List (Str × PValue)) : Except Str Str :=
  renderAux params Option.none template

/-- The placeholder names occurring in a template, in order, with the same
scanner as the renderer. -/
def placeholdersAux : Option Str → Str → List Str
  | _, [] => []
  | Option.none, c :: rest =>
    if c = obr then placeholdersAux (some []) rest
    else placeholdersAux Option.none rest
  | some acc, c :: rest =>
    if c = cbr then
      if validPhName acc then acc :: placeholdersAux Option.none rest
      else placeholdersAux Option.none rest
    else if isWordChar c then placeholdersAux (some (acc ++ [c])) rest
    else if c = obr then placeholdersAux (some []) rest
    else placeholdersAux Option.none rest

/-- The placeholder names of a template, in occurrence order. -/
def placeholdersOf (template : Str) : List Str :=
  placeholdersAux Option.none template

/-! ## Block kind constants -/

def BLOCK_EVENT : Str := S "event"
def BLOCK_IF : Str := S "if"
def BLOCK_ELSIF : Str := S "elsif"
def BLOCK_ELSE : Str := S "else"
def BLOCK_WHILE : Str := S "while"
def BLOCK_RETURN : Str := S "return"
def BLOCK_COMMENT : Str := S "comment"
def BLOCK_SET_VAR : Str := S "set_var"
def BLOCK_SET_BUCKET : Str := S "set_bucket"
def BLOCK_GET_BUCKET : Str := S "get_bucket"
def BLOCK_DELETE_BUCKET : Str := S "delete_bucket"
def BLOCK_TIMER : Str := S "timer"
def BLOCK_FOR : Str := S "for"
def BLOCK_FOREACH : Str := S "foreach"
def BLOCK_PLUGIN : Str := S "plugin"
def BLOCK_RAW_PERL : Str := S "raw_perl"
def BLOCK_METHOD : Str := S "method_call"
def BLOCK_QUEST_CALL : Str := S "quest_call"
def BLOCK_MY_VAR : Str := S "my_var"
def BLOCK_OUR_VAR : Str := S "our_var"
def BLOCK_NEXT : Str := S "next"
def BLOCK_ARRAY_ASSIGN : Str := S "array_assign"

/-! ## Code generator (`generate_perl`) -/

/-- Generation failures (Python exceptions escaping `generate_perl`):
a missing template parameter from `render_plugin_template`, or an `int()`
failure on a timer's seconds value. -/
inductive GenErr where
  | missingParam (name : Str)
  | badInt (v : PValue)

/-- The `str(e)` text of a generation failure, used by the validator. -/
def genErrMsg : GenErr → Str
  | .missingParam n => S "Missing template param: " ++ n
  | .badInt v => S "invalid literal for int() with base 10: " ++ reprAtom v

/-- `emit(line, indent)`: 4 spaces of indentation per nesting level. -/
def emitLine (ind : Nat) (l : Str) : Str := List.replicate (4 * ind) ' ' ++ l

/-- Python `s.endswith(";")`. -/
def endsWithSemi (s : Str) : Bool := [';'].isSuffixOf s

/-- The declare-variable value transformation: strip exactly one trailing
statement terminator (after trailing-whitespace removal) from the supplied
value text (`BLOCK_MY_VAR` / `BLOCK_OUR_VAR` branches of `generate_perl`). -/
def stripOneSemi (v : Str) : Str :=
  if endsWithSemi (pyRstrip v) then pyRstrip (pyRstrip v).dropLast else v

mutual

/-- Render one block to output lines (the body of `generate_perl`'s
`render_block`). -/
def renderBlock (plugins : PluginRegistry) : Block → Nat → Except GenErr (List Str)
  | .mk t _ params children, ind =>
    if t = BLOCK_EVENT then
      let event_name := pyStrOfValue (getParam params (S "event_name") (.str (S "EVENT_SAY")))
      match renderBlocks plugins children (ind + 1) with
      | .error e => .error e
      | .ok body =>
        .ok (emitLine ind (S "sub " ++ event_name ++ S " \x7b") ::
             body ++ [emitLine ind [cbr], emitLine ind []])
    else if t = BLOCK_NEXT then
      let expr := pyStrip (pyStrOfValue (getParam params (S "expr") (.str [])))
      .ok [emitLine ind (if expr.isEmpty then S "next;" else S "next " ++ expr ++ S ";")]
    else if t = BLOCK_IF then
      let expr := pyStrOfValue (getParam params (S "expr") (.str (S "1")))
      match renderBlocks plugins children (ind + 1) with
      | .error e => .error e
      | .ok body =>
        .ok (emitLine ind (S "if (" ++ expr ++ S ") \x7b") :: body ++ [emitLine ind [cbr]])
    else if t = BLOCK_WHILE then
      let expr := pyStrOfValue (getParam params (S "expr") (.str (S "1")))
      match renderBlocks plugins children (ind + 1) with
      | .error e => .error e
      | .ok body =>
        .ok (emitLine ind (S "while (" ++ expr ++ S ") \x7b") :: body ++ [emitLine ind [cbr]])
    else if t = BLOCK_FOREACH then
      let var := pyStrOfValue (getParam params (S "var_name") (.str (S "$x")))
      let lst := pyStrOfValue (getParam params (S "list_expr") (.str (S "@list")))
      match renderBlocks plugins children (ind + 1) with
      | .error e => .error e
      | .ok body =>
        .ok (emitLine ind (S "foreach my " ++ var ++ S " (" ++ lst ++ S ") \x7b") ::
             body ++ [emitLine ind [cbr]])
    else if t = BLOCK_QUEST_CALL then
      let fn := pyStrOfValue (getParam params (S "quest_fn") (.str (S "say")))
      let args := pyStrOfValue (getParam params (S "args") (.str (S "\"Hello, world!\"")))
      .ok [emitLine ind (S "quest::" ++ fn ++ S "(" ++ args ++ S ");")]
    else if t = BLOCK_ELSIF then
      let expr := pyStrOfValue (getParam params (S "expr") (.str (S "1")))
      match renderBlocks plugins children (ind + 1) with
      | .error e => .error e
      | .ok body =>
        .ok (emitLine ind (S "elsif (" ++ expr ++ S ") \x7b") :: body ++ [emitLine ind [cbr]])
    else if t = BLOCK_ELSE then
      match renderBlocks plugins children (ind + 1) with
      | .error e => .error e
      | .ok body =>
        .ok (emitLine ind (S "else \x7b") :: body ++ [emitLine ind [cbr]])
    else if t = BLOCK_SET_VAR then
      let var := pyStrOfValue (getParam params (S "var_name") (.str (S "$myvar")))
      let value := pyStrOfValue (getParam params (S "value") (.str (S "0")))
      .ok [emitLine ind (var ++ S " = " ++ value ++ S ";")]
    else if t = BLOCK_ARRAY_ASSIGN then
      let lhs := pyStrOfValue (getParam params (S "lhs") (.str (S "$hash\x7b$key\x7d")))
      let value := pyStrOfValue (getParam params (S "value") (.str (S "0")))
      .ok [emitLine ind (lhs ++ S " = " ++ value ++ S ";")]
    else if t = BLOCK_MY_VAR then
      let var := pyStrOfValue (getParam params (S "var_name") (.str (S "$myvar")))
      let v0 := getParam params (S "value") (.str [])
      let v1 := match v0 with | .pynone => [] | w => pyStrOfValue w
      let value := stripOneSemi v1
      .ok [emitLine ind
        (if !(pyStrip value).isEmpty then S "my " ++ var ++ S " = " ++ value ++ S ";"
         else S "my " ++ var ++ S ";")]
    else if t = BLOCK_OUR_VAR then
      let var := pyStrOfValue (getParam params (S "var_name") (.str (S "$OurVar")))
      let v0 := getParam params (S "value") (.str [])
      let v1 := match v0 with | .pynone => [] | w => pyStrOfValue w
      let value := stripOneSemi v1
      .ok [emitLine ind
        (if !(pyStrip value).isEmpty then S "our " ++ var ++ S " = " ++ value ++ S ";"
         else S "our " ++ var ++ S ";")]
    else if t = BLOCK_SET_BUCKET then
      let kv := getParam params (S "key") .pynone
      let key := pyStrip (if truthy kv then pyStrOfValue kv else S "\"my_bucket\"")
      let vv := getParam params (S "value") .pynone
      let value := pyStrip (if truthy vv then pyStrOfValue vv else S "\"\"")
      .ok [emitLine ind (S "quest::set_data(" ++ key ++ S ", " ++ value ++ S ");")]
    else if t = BLOCK_GET_BUCKET then
      let kv := getParam params (S "key") .pynone
      let key := pyStrip (if truthy kv then pyStrOfValue kv else S "\"my_bucket\"")
      let vv := getParam params (S "var_name") .pynone
      let var := pyStrip (if truthy vv then pyStrOfValue vv else S "$value")
      .ok [emitLine ind (var ++ S " = quest::get_data(" ++ key ++ S ");")]
    else if t = BLOCK_DELETE_BUCKET then
      let kv := getParam params (S "key") .pynone
      let key := pyStrip (if truthy kv then pyStrOfValue kv else S "\"my_bucket\"")
      .ok [emitLine ind (S "quest::delete_data(" ++ key ++ S ");")]
    else if t = BLOCK_TIMER then
      let name := pyStrOfValue (getParam params (S "name") (.str (S "my_timer")))
      let secv := getParam params (S "seconds") (.int 10)
      match pyIntOfValue secv with
      | Option.none => .error (.badInt secv)
      | some n =>
        .ok [emitLine ind (S "quest::settimer(\"" ++ name ++ S "\", " ++ intToChars n ++ S ");")]
    else if t = BLOCK_FOR then
      let var := pyStrOfValue (getParam params (S "var_name") (.str (S "$i")))
      let start_s := pyStrOfValue (getParam params (S "start") (.int 0))
      let end_s := pyStrOfValue (getParam params (S "end") (.int 10))
      let cmp := pyStrOfValue (getParam params (S "cmp_op") (.str (S "<=")))
      let incv := getParam params (S "inc_expr") .pynone
      let inc := if truthy incv then pyStrOfValue incv else S "++"
      match renderBlocks plugins children (ind + 1) with
      | .error e => .error e
      | .ok body =>
        .ok (emitLine ind
              (S "for (my " ++ var ++ S " = " ++ start_s ++ S "; " ++
               var ++ S " " ++ cmp ++ S " " ++ end_s ++ S "; " ++
               var ++ inc ++ S ") \x7b") :: body ++ [emitLine ind [cbr]])
    else if t = BLOCK_RETURN then
      let val := pyStrip (pyStrOfValue (getParam params (S "value") (.str [])))
      .ok [emitLine ind (if val.isEmpty then S "return;" else S "return " ++ val ++ S ";")]
    else if t = BLOCK_COMMENT then
      let text := pyStrOfValue (getParam params (S "text") (.str []))
      if (pyStrip text).isEmpty then .ok [emitLine ind (S "#")]
      else .ok ((pySplitlines text).map (fun l => emitLine ind (S "# " ++ l)))
    else if t = BLOCK_PLUGIN then
      let pid := getParam params (S "plugin_id") .pynone
      if !truthy pid then .ok []
      else
        match plugins.get (pyStrOfValue pid) with
        | Option.none =>
          .ok [emitLine ind (S "# [Unknown plugin: " ++ pyStrOfValue pid ++ S "]")]
        | some pdef =>
          let plugin_params :=
            match getParam params (S "plugin_params") (.dict []) with
            | .dict kvs => kvs
            | _ => []
          match render_plugin_template pdef.perl_template plugin_params with
          | .error k => .error (.missingParam k)
          | .ok code =>
            .ok ((pySplitlines code).map
                  (fun ln => emitLine ind (if (pyStrip ln).isEmpty then [] else ln)))
    else if t = BLOCK_RAW_PERL then
      let code := pyStrOfValue (getParam params (S "code") (.str []))
      .ok ((pySplitlines code).map (emitLine ind))
    else if t = BLOCK_METHOD then
      let target := pyStrOfValue (getParam params (S "target") (.str (S "$client")))
      let method := pyStrOfValue (getParam params (S "method") (.str (S "Message")))
      let args := pyStrip (pyStrOfValue (getParam params (S "args") (.str [])))
      .ok [emitLine ind
        (if !args.isEmpty then target ++ S "->" ++ method ++ S "(" ++ args ++ S ");"
         else target ++ S "->" ++ method ++ S "();")]
    else
      .ok [emitLine ind (S "# [Unknown block type: " ++ t ++ S "]")]

/-- Render a block list in order, concatenating the emitted lines. -/
def renderBlocks (plugins : PluginRegistry) : List Block → Nat → Except GenErr (List Str)
  | [], _ => .ok []
  | b :: bs, ind =>
    match renderBlock plugins b ind with
    | .error e => .error e
    | .ok l =>
      match renderBlocks plugins bs ind with
      | .error e => .error e
      | .ok ls => .ok (l ++ ls)

end

/-- The fixed identification comment prepended to every generated script. -/
def headerLine : Str := S "# Generated by EQEmu Script Builder v1.2"

/-- `generate_perl(blocks, plugins, npc_id)`: header lines, then the rendered
blocks, joined with newlines. -/
def generate_perl (blocks : List Block) (plugins : PluginRegistry)
    (npc_id : Option Int) : Except GenErr Str :=
  let header :=
    headerLine ::
    (match npc_id with
     | some n => [S "# NPCID: " ++ intToChars n]
     | Option.none => []) ++ [[]]
  match renderBlocks plugins blocks 0 with
  | .error e => .error e
  | .ok body => .ok (joinLines (header ++ body))

/-! ## Reverse parser: line recognizers

Each precompiled regex of `parse_perl_to_blocks` is hand-compiled to a
deterministic matcher over the stripped line, reproducing Python `re`
leftmost/greedy/lazy semantics for that pattern.  Parsed lines come from
`splitlines` and therefore contain no newline. -/

/-- Consume `\s*` (greedy; deterministic whenever the following literal is
not a space, which holds in every pattern below). -/
def skipSpaces (s : Str) : Str := s.dropWhile isPySpace

/-- Consume `\s+`. -/
def reqSpaces1 : Str → Option Str
  | [] => none
  | c :: rest => if isPySpace c then some (rest.dropWhile isPySpace) else none

/-- Consume one expected character. -/
def expectChar (c : Char) : Str → Option Str
  | [] => none
  | d :: rest => if d = c then some rest else none

/-- Capture `[\$\@\%]\w+` (sigil plus a nonempty word-character run). -/
def matchSigilVar : Str → Option (Str × Str)
  | [] => none
  | c :: rest =>
    if c = '$' || c = '@' || c = '%' then
      let w := rest.takeWhile isWordChar
      if w.isEmpty then none else some (c :: w, rest.drop w.length)
    else none

/-- Capture `\$\w+`. -/
def matchDollarVar : Str → Option (Str × Str)
  | [] => none
  | c :: rest =>
    if c = '$' then
      let w := rest.takeWhile isWordChar
      if w.isEmpty then none else some (c :: w, rest.drop w.length)
    else none

/-- Python `s.endswith(suffix)`. -/
def pyEndsWith (suffix s : Str) : Bool := suffix.isSuffixOf s

/-- Tail test for `;\s*(?:#.*)?$`: after the statement terminator, only
whitespace and an optional comment may remain. -/
def tailOk (t : Str) : Bool :=
  match skipSpaces t with
  | [] => true
  | c :: _ => c = '#'

/-- Shortest split of `s` at a `;` whose tail satisfies `tailOk`
(the core of the lazy `(.+?);\s*(?:#.*)?$` search; an empty prefix is
allowed here, the caller enforces the one-character minimum). -/
def lazySemiCore : Str → Option (Str × Str)
  | [] => none
  | c :: rest =>
    if c = ';' && tailOk rest then some ([], rest)
    else
      match lazySemiCore rest with
      | some (p, q) => some (c :: p, q)
      | none => none

/-- The lazy right-hand side of `=\s*(.+?);\s*(?:#.*)?$` given the text after
`=`: Python first consumes the maximal `\s*`, looks for the lazily shortest
terminated right-hand side, and on failure backtracks the `\s*` so that the
shortest match keeps a single space character as the right-hand side. -/
def lazyRhsAfterEq (r : Str) : Option Str :=
  let maxk := (r.takeWhile isPySpace).length
  match (r.drop maxk) with
  | c :: rest =>
    (match lazySemiCore rest with
     | some (p, _) => some (c :: p)
     | none =>
       -- all terminators (if any) lie inside the whitespace run consumed by
       -- the greedy `\s*`; Python backtracks one space and captures it
       (lastSemiOkPos r maxk))
  | [] => lastSemiOkPos r maxk
where
  /-- When every `tailOk` terminator sits at position `< maxk + 1`, the match
  succeeds with the single character before the rightmost such terminator. -/
  lastSemiOkPos (r : Str) (maxk : Nat) : Option Str :=
    match findLastOkSemi r with
    | some p => if p ≥ 1 && p ≤ maxk then some [r.getD (p - 1) ' '] else none
    | none => none
  /-- Index of the rightmost `;` in `r` whose tail satisfies `tailOk`. -/
  findLastOkSemi : Str → Option Nat
    | [] => none
    | c :: rest =>
      match findLastOkSemi rest with
      | some p => some (p + 1)
      | none => if c = ';' && tailOk rest then some 0 else none

/-- `^sub\s+(EVENT_\w+)\s*\x7b`: an event-handler opener. -/
def matchSubEvent (s : Str) : Option Str := do
  let r1 ← expectLit (S "sub") s
  let r2 ← reqSpaces1 r1
  let r3 ← expectLit (S "EVENT_") r2
  let w := r3.takeWhile isWordChar
  if w.isEmpty then none
  else
    match skipSpaces (r3.drop w.length) with
    | c :: _ => if c = obr then some (S "EVENT_" ++ w) else none
    | [] => none

/-- `^sub\s+(\w+)\s*\x7b`: any subroutine opener. -/
def matchSubAny (s : Str) : Option Str := do
  let r1 ← expectLit (S "sub") s
  let r2 ← reqSpaces1 r1
  let w := r2.takeWhile isWordChar
  if w.isEmpty then none
  else
    match skipSpaces (r2.drop w.length) with
    | c :: _ => if c = obr then some w else none
    | [] => none

/-- Rightmost split of `r` as `pre ++ ')' :: post` such that `post` starts,
after optional whitespace, with an opening brace — the greedy
`(.+)\)\s*\x7b` tail of the conditional/loop openers. -/
def lastCondSplit : Str → Option (Str × Str)
  | [] => none
  | c :: rest =>
    match lastCondSplit rest with
    | some (p, q) => some (c :: p, q)
    | none =>
      if c = ')' then
        match skipSpaces rest with
        | d :: _ => if d = obr then some ([], rest) else none
        | [] => none
      else none

/-- `^if\s*\((.+)\)\s*\x7b`. -/
def matchIf (s : Str) : Option Str := do
  let r1 ← expectLit (S "if") s
  let r2 ← expectChar '(' (skipSpaces r1)
  let (pre, _) ← lastCondSplit r2
  if pre.isEmpty then none else some pre

/-- `^\s*elsif\s*\((.+)\)\s*\\x7b`. -/
def matchElsif (s : Str) : Option Str := do
  let r1 ← expectLit (S "elsif") (skipSpaces s)
  let r2 ← expectChar '(' (skipSpaces r1)
  let (pre, _) ← lastCondSplit r2
  if pre.isEmpty then none else some pre

/-- `^\s*else\s*\\x7b`. -/
def matchElse (s : Str) : Bool :=
  match expectLit (S "else") (skipSpaces s) with
  | some r1 =>
    match skipSpaces r1 with
    | c :: _ => c = obr
    | [] => false
  | none => false

/-- `^while\s*\((.+)\)\s*\x7b`. -/
def matchWhile (s : Str) : Option Str := do
  let r1 ← expectLit (S "while") s
  let r2 ← expectChar '(' (skipSpaces r1)
  let (pre, _) ← lastCondSplit r2
  if pre.isEmpty then none else some pre

/-- `^foreach\s+my\s+(\$\w+)\s*\((.+)\)\s*\x7b$` (anchored at the end:
the line must close with the opening brace). -/
def matchForeach (s : Str) : Option (Str × Str) := do
  let r1 ← expectLit (S "foreach") s
  let r2 ← reqSpaces1 r1
  let r3 ← expectLit (S "my") r2
  let r4 ← reqSpaces1 r3
  let (v, r5) ← matchDollarVar r4
  let r6 ← expectChar '(' (skipSpaces r5)
  match r6.reverse with
  | b :: revRest =>
    if b = obr then
      match skipSpaces revRest with
      | p :: revExpr =>
        if p = ')' && !revExpr.isEmpty then some (v, revExpr.reverse) else none
      | [] => none
    else none
  | [] => none

/-- The increment alternation of the for-loop pattern:
`(\+\+|\-\-|\+=\s*[^)]+|-=\s*[^)]+)`, with the following `\s*\)\s*\x7b`. -/
def matchForInc (r : Str) : Option Str := do
  let tryTail : Str → Option Unit := fun t => do
    let t1 ← expectChar ')' (skipSpaces t)
    match skipSpaces t1 with
    | c :: _ => if c = obr then some () else none
    | [] => none
  match expectLit (S "++") r with
  | some rest => (tryTail rest).map (fun _ => S "++")
  | none =>
    match expectLit (S "--") r with
    | some rest => (tryTail rest).map (fun _ => S "--")
    | none =>
      match expectLit (S "+=") r with
      | some rest =>
        let chunk := rest.takeWhile (fun c => c ≠ ')')
        if chunk.isEmpty then none
        else (tryTail (rest.drop chunk.length)).map (fun _ => S "+=" ++ chunk)
      | none =>
        match expectLit (S "-=") r with
        | some rest =>
          let chunk := rest.takeWhile (fun c => c ≠ ')')
          if chunk.isEmpty then none
          else (tryTail (rest.drop chunk.length)).map (fun _ => S "-=" ++ chunk)
        | none => none

/-- The counted-for-loop opener `re_for`:
`^for\s*\(\s*my\s+(\$\w+)\s*=\s*([^;]+);\s*\1\s*(<=|<)\s*([^;]+);\s*\1\s*(incr)\s*\)\s*\x7b`.
Returns `(var, start, cmp, end, inc)` captures. -/
def matchFor (s : Str) : Option (Str × Str × Str × Str × Str) := do
  let r1 ← expectLit (S "for") s
  let r2 ← expectChar '(' (skipSpaces r1)
  let r3 ← expectLit (S "my") (skipSpaces r2)
  let r4 ← reqSpaces1 r3
  let (v, r5) ← matchDollarVar r4
  let r6 ← expectChar '=' (skipSpaces r5)
  let r7 := skipSpaces r6
  let start := r7.takeWhile (fun c => c ≠ ';')
  if start.isEmpty then none
  else do
    let r8 ← expectChar ';' (r7.drop start.length)
    let r9 ← expectLit v (skipSpaces r8)
    let r10 := skipSpaces r9
    let (cmp, r11) ←
      match expectLit (S "<=") r10 with
      | some rest => some (S "<=", rest)
      | none =>
        match expectLit (S "<") r10 with
        | some rest => some (S "<", rest)
        | none => none
    let r12 := skipSpaces r11
    let endv := r12.takeWhile (fun c => c ≠ ';')
    if endv.isEmpty then none
    else do
      let r13 ← expectChar ';' (r12.drop endv.length)
      let r14 ← expectLit v (skipSpaces r13)
      let inc ← matchForInc (skipSpaces r14)
      some (v, start, cmp, endv, inc)

/-- `^quest::settimer\(\s*"([^"]+)"\s*,\s*([0-9_]+)\s*\);`. -/
def matchSettimer (s : Str) : Option (Str × Str) := do
  let r1 ← expectLit (S "quest::settimer(") s
  let r2 ← expectChar '"' (skipSpaces r1)
  let name := r2.takeWhile (fun c => c ≠ '"')
  if name.isEmpty then none
  else do
    let r3 ← expectChar '"' (r2.drop name.length)
    let r4 ← expectChar ',' (skipSpaces r3)
    let r5 := skipSpaces r4
    let digs := r5.takeWhile (fun c => isDigitChar c || c = '_')
    if digs.isEmpty then none
    else do
      let _ ← expectLit (S ");") (skipSpaces (r5.drop digs.length))
      some (name, digs)

/-- `^quest::(\w+)\((.*)\);` (unanchored: the greedy capture extends to the
rightmost `);`). -/
def matchQuest (s : Str) : Option (Str × Str) := do
  let r1 ← expectLit (S "quest::") s
  let fn := r1.takeWhile isWordChar
  if fn.isEmpty then none
  else do
    let r2 ← expectChar '(' (r1.drop fn.length)
    let (args, _) ← findLastSplit (S ");") r2
    some (fn, args)

/-- `^my\s+([\$\@\%]\w+)\s*(?:=\s*(.+?))?;\s*(?:#.*)?$` (and the same with
`our`): a scoped or shared declaration with optional initializer. -/
def matchDecl (kw : Str) (s : Str) : Option (Str × Option Str) := do
  let r1 ← expectLit kw s
  let r2 ← reqSpaces1 r1
  let (v, r3) ← matchSigilVar r2
  let r4 := skipSpaces r3
  match r4 with
  | '=' :: r5 =>
    match lazyRhsAfterEq r5 with
    | some rhs => some (v, some rhs)
    | none => none
  | ';' :: rest => if tailOk rest then some (v, none) else none
  | _ => none

/-- `^(my|our)\s+([\$\@\%]\w+)\s*=\s*\(\s*$`: the opener of a multi-line
bracketed declaration.  Returns the keyword and the variable name. -/
def matchMultilineDeclStart (s : Str) : Option (Str × Str) := do
  let (kw, r1) ←
    match expectLit (S "my") s with
    | some rest => some (S "my", rest)
    | none =>
      match expectLit (S "our") s with
      | some rest => some (S "our", rest)
      | none => none
  let r2 ← reqSpaces1 r1
  let (v, r3) ← matchSigilVar r2
  let r4 ← expectChar '=' (skipSpaces r3)
  let r5 ← expectChar '(' (skipSpaces r4)
  if r5.all isPySpace then some (kw, v) else none

/-- `^\$npc->SetBucket\("([^"]+)"\s*,\s*"([^"]*)"\);`. -/
def matchBucketSet (s : Str) : Option (Str × Str) := do
  let r1 ← expectLit (S "$npc->SetBucket(\"") s
  let key := r1.takeWhile (fun c => c ≠ '"')
  if key.isEmpty then none
  else do
    let r2 ← expectChar '"' (r1.drop key.length)
    let r3 ← expectChar ',' (skipSpaces r2)
    let r4 ← expectChar '"' (skipSpaces r3)
    let v := r4.takeWhile (fun c => c ≠ '"')
    let _ ← expectLit (S "\");") (r4.drop v.length)
    some (key, v)

/-- `^(\$\w+)\s*=\s*\$npc->GetBucket\("([^"]+)"\);`. -/
def matchBucketGet (s : Str) : Option (Str × Str) := do
  let (v, r1) ← matchDollarVar s
  let r2 ← expectChar '=' (skipSpaces r1)
  let r3 ← expectLit (S "$npc->GetBucket(\"") (skipSpaces r2)
  let key := r3.takeWhile (fun c => c ≠ '"')
  if key.isEmpty then none
  else do
    let _ ← expectLit (S "\");") (r3.drop key.length)
    some (v, key)

/-- `^\$npc->DeleteBucket\("([^"]+)"\);`. -/
def matchBucketDelete (s : Str) : Option Str := do
  let r1 ← expectLit (S "$npc->DeleteBucket(\"") s
  let key := r1.takeWhile (fun c => c ≠ '"')
  if key.isEmpty then none
  else do
    let _ ← expectLit (S "\");") (r1.drop key.length)
    some key

/-- The value capture of `\s*(.+);$` given the text after `=`: greedy
whitespace followed by a nonempty capture ending at the final `;`, with the
same one-space backtracking behaviour as the declaration right-hand side. -/
def greedyRhsSemiEnd (r : Str) : Option Str :=
  match r.reverse with
  | c :: _ =>
    if c = ';' then
      let body := r.dropLast
      if body.isEmpty then none
      else
        let maxk := (r.takeWhile isPySpace).length
        some (body.drop (min maxk (body.length - 1)))
    else none
  | [] => none

/-- `^(\$\w+\s*\x7b\s*[^\x7d]+\s*\x7d)\s*=\s*(.+);$`: indexed assignment.
Returns the left-hand capture (original spacing preserved) and the value. -/
def matchArrayAssign (s : Str) : Option (Str × Str) := do
  let (v, r1) ← matchDollarVar s
  let sp1 := r1.takeWhile isPySpace
  let r2 ← expectChar obr (r1.drop sp1.length)
  let inner := r2.takeWhile (fun c => c ≠ cbr)
  if inner.isEmpty then none
  else do
    let r3 ← expectChar cbr (r2.drop inner.length)
    let r4 ← expectChar '=' (skipSpaces r3)
    let value ← greedyRhsSemiEnd r4
    some (v ++ sp1 ++ obr :: inner ++ [cbr], value)

/-- The value capture of `\s*(.+);` (no end anchor): greedy whitespace
followed by a nonempty capture extending to the rightmost `;`. -/
def greedyRhsLastSemi (r : Str) : Option Str := do
  let (pre, _) ← findLastSplit [';'] r
  if pre.isEmpty then none
  else
    let maxk := (r.takeWhile isPySpace).length
    some (pre.drop (min maxk (pre.length - 1)))

/-- `^(\$\w+)\s*=\s*(.+);`: plain assignment (unanchored tail). -/
def matchSetvar (s : Str) : Option (Str × Str) := do
  let (v, r1) ← matchDollarVar s
  let r2 ← expectChar '=' (skipSpaces r1)
  let value ← greedyRhsLastSemi r2
  some (v, value)

/-- `^(\$\w+)->(\w+)\((.*)\);`: method invocation (greedy capture to the
rightmost `);`). -/
def matchMethod (s : Str) : Option (Str × Str × Str) := do
  let (v, r1) ← matchDollarVar s
  let r2 ← expectLit (S "->") r1
  let m := r2.takeWhile isWordChar
  if m.isEmpty then none
  else do
    let r3 ← expectChar '(' (r2.drop m.length)
    let (args, _) ← findLastSplit (S ");") r3
    some (v, m, args)

/-- `^return\b(.*);?`: the optional terminator never constrains the greedy
capture, so the capture is the whole remainder after the word boundary. -/
def matchReturn (s : Str) : Option Str := do
  let r1 ← expectLit (S "return") s
  match r1 with
  | [] => some []
  | c :: _ => if isWordChar c then none else some r1

/-- `^next\b(.*);$`: capture between `next` and the terminating `;` that
must end the line. -/
def matchNext (s : Str) : Option Str := do
  let r1 ← expectLit (S "next") s
  match r1 with
  | [] => none
  | c :: _ =>
    if isWordChar c then none
    else
      match r1.reverse with
      | d :: _ => if d = ';' then some r1.dropLast else none
      | [] => none

/-! ## Dynamic pattern compiler

`parse_perl_to_blocks` precompiles each catalog template into a recognizer:
`re.escape` the template text, replace each escaped placeholder of a declared
parameter with a named lazy capture `(?P<name>.+?)`, relax escaped literal
spaces to `\s*`, and anchor both ends.  A compiled pattern is a sequence of
atoms; compilation is skipped (as Python's caught `re.error`) when a group
name is not an identifier or appears twice.  Placeholder names are assumed
brace-free, as produced by the plugin editor. -/

inductive PAtom where
  | lit (c : Char)
  | ws
  | grp (name : Str)

/-- Literal template characters as atoms (escaped spaces become `\s*`). -/
def litAtoms (s : Str) : List PAtom :=
  s.map (fun c => if c = ' ' then PAtom.ws else PAtom.lit c)

/-- Scan a template into atoms; `some acc` while reading a potential
placeholder body after an opening brace. -/
def compileAux (names : List Str) : Option Str → Str → List PAtom
  | Option.none, [] => []
  | some acc, [] => litAtoms (obr :: acc)
  | Option.none, c :: rest =>
    if c = obr then compileAux names (some []) rest
    else (if c = ' ' then PAtom.ws else PAtom.lit c) :: compileAux names Option.none rest
  | some acc, c :: rest =>
    if c = cbr then
      if acc ∈ names then PAtom.grp acc :: compileAux names Option.none rest
      else litAtoms (obr :: acc) ++ PAtom.lit cbr :: compileAux names Option.none rest
    else if c = obr then litAtoms (obr :: acc) ++ compileAux names (some []) rest
    else compileAux names (some (acc ++ [c])) rest

/-- The named groups of a compiled pattern, in order. -/
def atomGroupNames : List PAtom → List Str
  | [] => []
  | .grp n :: rest => n :: atomGroupNames rest
  | _ :: rest => atomGroupNames rest

/-- No duplicates among a list of names. -/
def nodupStr : List Str → Bool
  | [] => true
  | x :: xs => !xs.contains x && nodupStr xs

/-- A compiled pattern that Python's `re.compile` accepts: every group name
is a valid identifier and no group name repeats. -/
def validPatternB (atoms : List PAtom) : Bool :=
  (atomGroupNames atoms).all validPhName && nodupStr (atomGroupNames atoms)

/-- Nonempty newline-free prefixes of a string with their suffixes, shortest
first — the candidate consumptions of a lazy `(.+?)`. -/
def splitsNN : Str → List (Str × Str)
  | [] => []
  | c :: rest =>
    if c = '\n' then []
    else ([c], rest) :: (splitsNN rest).map (fun pq => (c :: pq.1, pq.2))

/-- Candidate suffixes for a greedy `\s*`, longest consumption first. -/
def wsCandidates (s : Str) : List Str :=
  let k := (s.takeWhile isPySpace).length
  (List.range (k + 1)).map (fun i => s.drop (k - i))

/-- Backtracking matcher for a compiled pattern against a whole line
(anchored at both ends), returning the named captures in pattern order. -/
def matchAtoms : List PAtom → Str → Option (List (Str × Str))
  | [], s => if s.isEmpty then some [] else none
  | .lit _ :: _, [] => none
  | .lit c :: ps, d :: rest => if d = c then matchAtoms ps rest else none
  | .ws :: ps, s => (wsCandidates s).findSome? (fun s2 => matchAtoms ps s2)
  | .grp n :: ps, s =>
    (splitsNN s).findSome?
      (fun pq => (matchAtoms ps pq.2).map (fun binds => (n, pq.1) :: binds))

/-- The ordered `(template, recognizer)` pairs built by the parser. -/
def buildPluginPatterns (reg : PluginRegistry) : List (PluginDef × List PAtom) :=
  reg.list_plugins.filterMap (fun p =>
    let atoms := compileAux p.params Option.none (pyStrip p.perl_template)
    if validPatternB atoms then some (p, atoms) else Option.none)

/-! ## Reverse parser: state machine -/

/-- An open container on the parser stack (a `Block` whose children are
still being collected; Python mutates the pushed block in place). -/
structure Frame where
  ty : Str
  label : Str
  params : List (Str × PValue)
  children : List Block

/-- Close an open container into a finished block. -/
def closeFrame (f : Frame) : Block := .mk f.ty f.label f.params f.children

/-- The full parser state: finished root blocks, the open-container stack
(innermost first), the two multi-line accumulation modes, and the pending
comment accumulator. -/
structure PState where
  roots : List Block
  stack : List Frame
  mlKind : Option Str
  mlVar : Option Str
  mlLines : List Str
  subName : Option Str
  subLines : List Str
  subDepth : Int
  commentAcc : List Str

def initState : PState :=
  ⟨[], [], Option.none, Option.none, [], Option.none, [], 0, []⟩

/-- `add_block`: append to the innermost open container, or to the roots. -/
def addBlock (st : PState) (b : Block) : PState :=
  match st.stack with
  | [] => { st with roots := st.roots ++ [b] }
  | f :: rest => { st with stack := { f with children := f.children ++ [b] } :: rest }

/-- Pop the innermost open container (no-op on an empty stack), closing it
into its parent. -/
def popFrame (st : PState) : PState :=
  match st.stack with
  | [] => st
  | f :: rest => addBlock { st with stack := rest } (closeFrame f)

def pushFrame (st : PState) (f : Frame) : PState := { st with stack := f :: st.stack }

/-- `flush_comment`: turn the accumulated comment lines into one comment
block (label truncated past 40 characters). -/
def flushComment (st : PState) : PState :=
  match st.commentAcc with
  | [] => st
  | first :: _ =>
    let text := joinLines st.commentAcc
    let f1 := pyStrip first
    let f2 := if f1.length > 40 then f1.take 37 ++ S "..." else f1
    let label := if f2.isEmpty then S "# comment" else S "# " ++ f2
    addBlock { st with commentAcc := [] }
      (.mk BLOCK_COMMENT label [(S "text", .str text)] [])

/-- `flush_multiline_decl`: emit the accumulated bracketed declaration as a
raw-passthrough block (or just reset when nothing was accumulated). -/
def flushMultiline (st : PState) : PState :=
  let reset := fun (s : PState) =>
    { s with mlKind := Option.none, mlVar := Option.none, mlLines := ([] : List Str) }
  match st.mlKind, st.mlVar with
  | some k, some v =>
    if st.mlLines.isEmpty then reset st
    else
      reset (addBlock st
        (.mk BLOCK_RAW_PERL
          (S "Raw Perl (" ++ k ++ S " " ++ v ++ S " ...)")
          [(S "code", .str (pyRstrip (joinLines st.mlLines)))] []))
  | _, _ => reset st

/-- `flush_custom_sub`: emit an accumulated non-event subroutine as a
raw-passthrough block (or just reset when nothing was accumulated). -/
def flushCustomSub (st : PState) : PState :=
  let reset := fun (s : PState) =>
    { s with subName := Option.none, subLines := ([] : List Str), subDepth := (0 : Int) }
  match st.subName with
  | some n =>
    if st.subLines.isEmpty then reset st
    else
      reset (addBlock st
        (.mk BLOCK_RAW_PERL
          (S "Raw Perl (sub " ++ n ++ S ")")
          [(S "code", .str (pyRstrip (joinLines st.subLines)))] []))
  | Option.none => reset st

/-- `_strip_strings_and_comment` helper: drop the (heuristic) trailing
comment, then collapse complete quoted spans to empty quotes.  `some buf`
holds the characters read since an opening quote; an unterminated span is
re-emitted verbatim at end of input. -/
def stripQuotedAux (q : Char) : Option Str → Str → Str
  | Option.none, [] => []
  | some buf, [] => q :: buf
  | Option.none, c :: rest =>
    if c = q then stripQuotedAux q (some []) rest
    else c :: stripQuotedAux q Option.none rest
  | some buf, c :: rest =>
    if c = q then q :: q :: stripQuotedAux q Option.none rest
    else if c = '\\' then
      match rest with
      | [] => q :: buf ++ ['\\']
      | d :: rest2 => stripQuotedAux q (some (buf ++ ['\\', d])) rest2
    else stripQuotedAux q (some (buf ++ [c])) rest

/-- Replace complete `q`-quoted spans (honouring backslash escapes) by `qq`. -/
def stripQuoted (q : Char) (s : Str) : Str := stripQuotedAux q Option.none s

/-- `_strip_strings_and_comment(s)`. -/
def stripStringsAndComment (s : Str) : Str :=
  stripQuoted '\'' (stripQuoted '"' (s.takeWhile (fun c => c ≠ '#')))

/-- `_brace_delta(line)`: open minus close braces outside quotes/comments. -/
def braceDelta (line : Str) : Int :=
  let t := stripStringsAndComment line
  (Int.ofNat (t.filter (fun c => c = obr)).length) -
    (Int.ofNat (t.filter (fun c => c = cbr)).length)

/-- `_to_int_or_str`: numeric-looking loop bounds become ints, otherwise the
stripped text is kept. -/
def toIntOrStr (s : Str) : PValue :=
  match pyIntOfStr (s.filter (fun c => c ≠ '_')) with
  | some n => .int n
  | Option.none => .str (pyStrip s)

/-- The recognizer cascade run on a line that is not blank, not a comment,
not a closing brace, and not one of the accumulation-mode openers. -/
def parseLineRest (pats : List (PluginDef × List PAtom)) (st : PState)
    (line stripped : Str) : PState :=
  match matchNext stripped with
  | some suffixRaw =>
    let suffix := pyStrip suffixRaw
    let label := if suffix.isEmpty then S "next" else S "next " ++ suffix
    addBlock st (.mk BLOCK_NEXT label [(S "expr", .str suffix)] [])
  | Option.none =>
  match matchIf stripped with
  | some exprRaw =>
    let expr := pyStrip exprRaw
    pushFrame st ⟨BLOCK_IF, S "if (" ++ expr ++ S ")", [(S "expr", .str expr)], []⟩
  | Option.none =>
  match matchElsif stripped with
  | some exprRaw =>
    let expr := pyStrip exprRaw
    let st :=
      match st.stack with
      | f :: _ => if f.ty = BLOCK_IF || f.ty = BLOCK_ELSIF then popFrame st else st
      | [] => st
    pushFrame st ⟨BLOCK_ELSIF, S "elsif (" ++ expr ++ S ")", [(S "expr", .str expr)], []⟩
  | Option.none =>
  if matchElse stripped then
    let st :=
      match st.stack with
      | f :: _ => if f.ty = BLOCK_IF || f.ty = BLOCK_ELSIF then popFrame st else st
      | [] => st
    pushFrame st ⟨BLOCK_ELSE, S "else", [], []⟩
  else
  match matchWhile stripped with
  | some exprRaw =>
    let expr := pyStrip exprRaw
    pushFrame st ⟨BLOCK_WHILE, S "while (" ++ expr ++ S ")", [(S "expr", .str expr)], []⟩
  | Option.none =>
  match matchForeach stripped with
  | some (vRaw, lstRaw) =>
    let v := pyStrip vRaw
    let lst := pyStrip lstRaw
    pushFrame st ⟨BLOCK_FOREACH, S "foreach my " ++ v ++ S " (" ++ lst ++ S ")",
      [(S "var_name", .str v), (S "list_expr", .str lst)], []⟩
  | Option.none =>
  match matchFor stripped with
  | some (v, startRaw, cmpRaw, endRaw, incRaw) =>
    let start := pyStrip startRaw
    let endv := pyStrip endRaw
    let cmp := pyStrip cmpRaw
    let inc := pyStrip incRaw
    pushFrame st ⟨BLOCK_FOR,
      S "for (" ++ v ++ S "=" ++ start ++ S ".." ++ endv ++ S " " ++ cmp ++ S " " ++ inc ++ S ")",
      [(S "var_name", .str v), (S "start", toIntOrStr start), (S "end", toIntOrStr endv),
       (S "cmp_op", .str cmp), (S "inc_expr", .str inc)], []⟩
  | Option.none =>
  match matchSettimer stripped with
  | some (name, digs) =>
    let cleaned := digs.filter (fun c => c ≠ '_')
    let secVal : Int := if allDigits cleaned then Int.ofNat (digitsVal cleaned) else 10
    addBlock st (.mk BLOCK_TIMER
      (S "Set timer \"" ++ name ++ S "\" to " ++ intToChars secVal ++ S "s")
      [(S "name", .str name), (S "seconds", .int secVal)] [])
  | Option.none =>
  match matchQuest stripped with
  | some (fnRaw, argsRaw) =>
    let fn := pyStrip fnRaw
    let args := pyStrip argsRaw
    addBlock st (.mk BLOCK_QUEST_CALL
      (S "quest::" ++ fn ++ S "(" ++ args ++ S ")")
      [(S "quest_fn", .str fn), (S "args", .str args)] [])
  | Option.none =>
  match matchDecl (S "my") stripped with
  | some (v, rhs) =>
    let value := pyStrip (rhs.getD [])
    let params :=
      (S "var_name", PValue.str v) ::
      (if value.isEmpty then [] else [(S "value", PValue.str value)])
    let label := S "my " ++ v ++ (if value.isEmpty then [] else S " = " ++ value)
    addBlock st (.mk BLOCK_MY_VAR label params [])
  | Option.none =>
  match matchDecl (S "our") stripped with
  | some (v, rhs) =>
    let value := pyStrip (rhs.getD [])
    let params :=
      (S "var_name", PValue.str v) ::
      (if value.isEmpty then [] else [(S "value", PValue.str value)])
    let label := S "our " ++ v ++ (if value.isEmpty then [] else S " = " ++ value)
    addBlock st (.mk BLOCK_OUR_VAR label params [])
  | Option.none =>
  match matchBucketSet stripped with
  | some (key, value) =>
    addBlock st (.mk BLOCK_SET_BUCKET (S "Set bucket \"" ++ key ++ S "\"")
      [(S "key", .str key), (S "value", .str value)] [])
  | Option.none =>
  match matchBucketGet stripped with
  | some (v, key) =>
    addBlock st (.mk BLOCK_GET_BUCKET
      (S "Get bucket \"" ++ key ++ S "\" into " ++ v)
      [(S "key", .str key), (S "var_name", .str v)] [])
  | Option.none =>
  match matchBucketDelete stripped with
  | some key =>
    addBlock st (.mk BLOCK_DELETE_BUCKET (S "Delete bucket \"" ++ key ++ S "\"")
      [(S "key", .str key)] [])
  | Option.none =>
  match matchArrayAssign stripped with
  | some (lhsRaw, valueRaw) =>
    let lhs := pyStrip lhsRaw
    let value := pyStrip valueRaw
    addBlock st (.mk BLOCK_ARRAY_ASSIGN (lhs ++ S " = " ++ value)
      [(S "lhs", .str lhs), (S "value", .str value)] [])
  | Option.none =>
  match matchSetvar stripped with
  | some (v, valueRaw) =>
    let value := pyStrip valueRaw
    addBlock st (.mk BLOCK_SET_VAR (S "Set " ++ v ++ S " = " ++ value)
      [(S "var_name", .str v), (S "value", .str value)] [])
  | Option.none =>
  match matchMethod stripped with
  | some (target, meth, argsRaw) =>
    let args := pyStrip argsRaw
    let label :=
      if args.isEmpty then target ++ S "->" ++ meth ++ S "()"
      else target ++ S "->" ++ meth ++ S "(" ++ args ++ S ")"
    addBlock st (.mk BLOCK_METHOD label
      [(S "target", .str target), (S "method", .str meth), (S "args", .str args)] [])
  | Option.none =>
  match matchReturn stripped with
  | some valRaw =>
    let val := pyStrip valRaw
    let label := if val.isEmpty then S "return" else S "return " ++ val
    addBlock st (.mk BLOCK_RETURN label [(S "value", .str val)] [])
  | Option.none =>
  match pats.findSome?
      (fun pa => (matchAtoms pa.2 stripped).map (fun binds => (pa.1, binds))) with
  | some (pdef, binds) =>
    addBlock st (.mk BLOCK_PLUGIN
      (S "Plugin: " ++ pdef.name ++ S " (" ++ pdef.plugin_id ++ S ")")
      [(S "plugin_id", .str pdef.plugin_id),
       (S "plugin_params", .dict (binds.map (fun nv => (nv.1, PValue.str nv.2))))] [])
  | Option.none =>
    addBlock st (.mk BLOCK_RAW_PERL (S "Raw Perl") [(S "code", .str line)] [])

/-- Process one input line (the body of the parser's `for raw in lines`). -/
def parseLine (pats : List (PluginDef × List PAtom)) (st : PState) (raw : Str) : PState :=
  let line := rstripNewline raw
  let stripped := pyStrip line
  if st.subName.isSome then
    let st1 := { st with subLines := st.subLines ++ [line],
                         subDepth := st.subDepth + braceDelta line }
    if st1.subDepth ≤ 0 then flushCustomSub st1 else st1
  else if st.mlKind.isSome then
    let st1 := { st with mlLines := st.mlLines ++ [line] }
    if pyEndsWith (S ");") stripped then flushMultiline st1 else st1
  else if stripped.isEmpty then flushComment st
  else
    match stripped with
    | '#' :: _ =>
      { st with commentAcc := st.commentAcc ++ [pyStrip (lstripHash stripped)] }
    | _ =>
      let st := flushComment st
      if stripped.headD ' ' = cbr then popFrame st
      else
        match matchMultilineDeclStart stripped with
        | some (kw, v) =>
          let st1 := { st with mlKind := some kw, mlVar := some v, mlLines := [line] }
          if pyEndsWith (S ");") stripped then flushMultiline st1 else st1
        | Option.none =>
        match matchSubEvent stripped with
        | some eventName =>
          pushFrame st ⟨BLOCK_EVENT, eventName, [(S "event_name", .str eventName)], []⟩
        | Option.none =>
        match matchSubAny stripped with
        | some subNm =>
          if !(S "EVENT_").isPrefixOf subNm then
            let st1 := { st with subName := some subNm, subLines := [line],
                                 subDepth := braceDelta line }
            if st1.subDepth ≤ 0 then flushCustomSub st1 else st1
          else parseLineRest pats st line stripped
        | Option.none => parseLineRest pats st line stripped

/-- Close every still-open container at end of input (Python's mutable
blocks are already attached to their parents when pushed; the model attaches
them on close). -/
def absorbOpen (b : Block) : List Frame → List Block → List Block
  | [], roots => roots ++ [b]
  | f :: rest, roots => absorbOpen (closeFrame ⟨f.ty, f.label, f.params, f.children ++ [b]⟩) rest roots

/-- The finished root list of a final parser state. -/
def finalRoots (st : PState) : List Block :=
  match st.stack with
  | [] => st.roots
  | f :: rest => absorbOpen (closeFrame f) rest st.roots

/-- `parse_perl_to_blocks(perl_text, registry)`. -/
def parse_perl_to_blocks (perl_text : Str) (reg : PluginRegistry) : List Block :=
  let pats := buildPluginPatterns reg
  let st := (pySplitlines perl_text).foldl (parseLine pats) initState
  finalRoots (flushComment st)

/-! ## Validation engine (`validate_blocks`) -/

/-- `ValidationIssue`: a severity-tagged finding with a location label and an
optional identity reference to the offending block. -/
structure ValidationIssue where
  level : Str
  message : Str
  whereLbl : Str
  blockRef : Option Block

/-- `_count_unescaped` (defined by the source's validator, unused by it). -/
def countUnescapedAux (ch : Char) : Bool → Nat → Str → Nat
  | _, n, [] => n
  | true, n, _ :: rest => countUnescapedAux ch false n rest
  | false, n, c :: rest =>
    if c = '\\' then countUnescapedAux ch true n rest
    else if c = ch then countUnescapedAux ch false (n + 1) rest
    else countUnescapedAux ch false n rest

def countUnescaped (s : Str) (ch : Char) : Nat :=
  if s.isEmpty then 0 else countUnescapedAux ch false 0 s

/-- `_unbalanced_quotes`: still inside a single- or double-quoted span at end
of text (escapes honoured, each quote type ignored inside the other). -/
def unbalancedQuotesAux : Bool → Bool → Bool → Str → Bool
  | ins, ind, _, [] => ins || ind
  | ins, ind, esc, c :: rest =>
    if esc then unbalancedQuotesAux ins ind false rest
    else if c = '\\' then unbalancedQuotesAux ins ind true rest
    else if c = '\'' && !ind then unbalancedQuotesAux (!ins) ind false rest
    else if c = '"' && !ins then unbalancedQuotesAux ins (!ind) false rest
    else unbalancedQuotesAux ins ind false rest

def unbalancedQuotes (s : Str) : Bool := unbalancedQuotesAux false false false s

/-- `_balanced_pairs(s, open, close)`: single-pass signed counter over
open/close symbols outside both quote types, honouring escapes; returns
`(ok, delta)`, stopping negative as soon as a closer precedes its opener. -/
def balancedPairsAux (oc cc : Char) : Int → Bool → Bool → Bool → Str → Bool × Int
  | stack, _, _, _, [] => (stack = 0, stack)
  | stack, insq, indq, esc, c :: rest =>
    if esc then balancedPairsAux oc cc stack insq indq false rest
    else if c = '\\' then balancedPairsAux oc cc stack insq indq true rest
    else if c = '\'' && !indq then balancedPairsAux oc cc stack (!insq) indq false rest
    else if c = '"' && !insq then balancedPairsAux oc cc stack insq (!indq) false rest
    else if insq || indq then balancedPairsAux oc cc stack insq indq false rest
    else if c = oc then balancedPairsAux oc cc (stack + 1) insq indq false rest
    else if c = cc then
      if stack - 1 < 0 then (false, stack - 1)
      else balancedPairsAux oc cc (stack - 1) insq indq false rest
    else balancedPairsAux oc cc stack insq indq false rest

def balancedPairs (s : Str) (oc cc : Char) : Bool × Int :=
  if s.isEmpty then (true, 0) else balancedPairsAux oc cc 0 false false false s

/-- `_has_suspicious_tokens`: cheap typo heuristics. -/
def hasSuspiciousTokens (s : Str) : List Str :=
  if s.isEmpty then []
  else
    (if containsSub (S "$timer eq") s && containsSub [('"' : Char)] s &&
        containsSub (S "$timer eq \"") s &&
        !(containsSub [('"' : Char)] ((afterFirstSub (S "$timer eq") s).getD []))
     then [S "Possible malformed $timer eq \"name\" comparison."] else []) ++
    (if containsSub (S ";;") s then [S "Contains ';;' (double semicolon)."] else []) ++
    (if (pySplitlines s).any (fun l => pyEndsWith (S "\\") (pyRstrip l))
     then [S "Line ends with '\\' (possible accidental escape)."] else [])

/-- `lint_text`: quote balance, parenthesis balance, brace balance, and the
typo heuristics, each yielding issues at the given severity. -/
def lintText (text label : Str) (severity : Str) (ref : Option Block)
    (check_quotes check_parens check_braces : Bool) : List ValidationIssue :=
  if text.isEmpty then []
  else
    (if check_quotes && unbalancedQuotes text then
       [⟨severity, S "Unbalanced quotes (missing \" or ').", label, ref⟩] else []) ++
    (if check_parens then
       let r := balancedPairs text '(' ')'
       if !r.1 then
         [⟨severity,
           if r.2 < 0 then S "Too many ')' (parentheses close before open)."
           else S "Unbalanced parentheses (missing ')').", label, ref⟩]
       else if r.2 ≠ 0 then
         [⟨severity, S "Unbalanced parentheses (missing ')').", label, ref⟩]
       else []
     else []) ++
    (if check_braces then
       let r := balancedPairs text obr cbr
       if !r.1 then
         [⟨severity,
           if r.2 < 0 then S "Too many '\x7d' (brace close before open)."
           else S "Unbalanced braces (missing '\x7d').", label, ref⟩]
       else if r.2 ≠ 0 then
         [⟨severity, S "Unbalanced braces (missing '\x7d').", label, ref⟩]
       else []
     else []) ++
    (hasSuspiciousTokens text).map (fun w => ⟨S "info", w, label, ref⟩)

mutual

/-- `_walk_blocks`: preorder traversal of a block forest. -/
def walkBlocks : List Block → List Block
  | [] => []
  | b :: bs => walkBlock b ++ walkBlocks bs

/-- One block and, recursively, its children. -/
def walkBlock : Block → List Block
  | .mk t l p cs => .mk t l p cs :: walkBlocks cs

end

/-- Insertion-ordered counting of duplicate handler names. -/
def bumpCount : List (Str × Nat) → Str → List (Str × Nat)
  | [], k => [(k, 1)]
  | (k', n) :: rest, k =>
    if k' = k then (k', n + 1) :: rest else (k', n) :: bumpCount rest k

/-- The stripped `event_name` of a top-level block
(`(b.params.get("event_name") or "").strip()`). -/
def eventNameOf (b : Block) : Str :=
  let v := getParam b.params (S "event_name") .pynone
  pyStrip (if truthy v then pyStrOfValue v else [])

/-- The timer names set by the script (nonempty names of timer blocks),
modelling the `timer_sets` accumulator. -/
def timerNames (blocks : List Block) : List Str :=
  (walkBlocks blocks).filterMap (fun b =>
    if b.ty = BLOCK_TIMER then
      let v := getParam b.params (S "name") .pynone
      let nm := pyStrip (if truthy v then pyStrOfValue v else [])
      if nm.isEmpty then Option.none else some nm
    else Option.none)

/-- `any(b.type == BLOCK_EVENT and b.params.get("event_name") == "EVENT_TIMER"
for b in blocks)`. -/
def hasEventTimer (blocks : List Block) : Bool :=
  blocks.any (fun b =>
    b.ty = BLOCK_EVENT &&
    (match getParam b.params (S "event_name") .pynone with
     | .str s => s = S "EVENT_TIMER"
     | _ => false))

/-- `validate_blocks(blocks, plugin_registry)`: the six check sections in
source order; the whole-script section re-generates the text and reports a
generation failure as a single error (returning early). -/
def validate_blocks (blocks : List Block) (plugin_registry : PluginRegistry) :
    List ValidationIssue :=
  -- 1) basic structure
  let issues1 : List ValidationIssue :=
    if blocks.any (fun b => b.ty = BLOCK_EVENT) then []
    else [⟨S "warn", S "No EVENT block found (script will do nothing).", S "root", Option.none⟩]
  -- 2) duplicate top-level EVENT_* blocks
  let counts :=
    blocks.foldl (fun acc b =>
      if b.ty = BLOCK_EVENT then
        let ev := eventNameOf b
        if ev.isEmpty then acc else bumpCount acc ev
      else acc) []
  let issues2 : List ValidationIssue :=
    counts.filterMap (fun kn =>
      if kn.2 > 1 then
        some ⟨S "warn",
          S "Duplicate top-level handler: " ++ kn.1 ++ S " appears " ++
          natToChars kn.2 ++ S " times (often accidental).", kn.1, Option.none⟩
      else Option.none)
  -- 3) plugin template checks
  let issues3 : List ValidationIssue :=
    (walkBlocks blocks).flatMap (fun b =>
      if b.ty ≠ BLOCK_PLUGIN then []
      else
        let pid := getParam b.params (S "plugin_id") .pynone
        if !truthy pid then
          [⟨S "error", S "Plugin block has no plugin selected.", b.label, some b⟩]
        else
          match plugin_registry.get (pyStrOfValue pid) with
          | Option.none =>
            [⟨S "error",
              S "Unknown plugin_id '" ++ pyStrOfValue pid ++ S "' (not found in plugins.json).",
              b.label, some b⟩]
          | some pdef =>
            let ppv := getParam b.params (S "plugin_params") (.dict [])
            let pp := if truthy ppv then (match ppv with | .dict kvs => kvs | _ => []) else []
            match render_plugin_template pdef.perl_template pp with
            | .ok _ => []
            | .error k =>
              [⟨S "error",
                S "Plugin template render failed: Missing template param: " ++ k,
                b.label, some b⟩])
  -- 4) timer checks
  let issues4 : List ValidationIssue :=
    (walkBlocks blocks).flatMap (fun b =>
      if b.ty ≠ BLOCK_TIMER then []
      else
        let nv := getParam b.params (S "name") .pynone
        let name := pyStrip (if truthy nv then pyStrOfValue nv else [])
        (if name.isEmpty then
           [⟨S "error", S "Timer block missing timer name.", b.label, some b⟩]
         else []) ++
        (match getParam b.params (S "seconds") .pynone with
         | .pynone => [⟨S "error", S "Timer seconds must be >= 0.", b.label, some b⟩]
         | v =>
           match pyIntOfValue v with
           | some n =>
             if n < 0 then [⟨S "error", S "Timer seconds must be >= 0.", b.label, some b⟩]
             else []
           | Option.none =>
             [⟨S "error", S "Timer seconds is not an integer.", b.label, some b⟩]))
  let issues4b : List ValidationIssue :=
    if !(timerNames blocks).isEmpty && !hasEventTimer blocks then
      [⟨S "warn", S "You set timers but have no EVENT_TIMER handler.", S "root", Option.none⟩]
    else []
  -- 5) per-block syntax-ish lint
  let issues5 : List ValidationIssue :=
    (walkBlocks blocks).flatMap (fun b =>
      if b.ty = BLOCK_RAW_PERL then
        let cv := getParam b.params (S "code") .pynone
        let code := if truthy cv then pyStrOfValue cv else []
        lintText code b.label (S "warn") (some b) true false false
      else
        (if b.ty = BLOCK_IF || b.ty = BLOCK_WHILE then
           let ev := getParam b.params (S "expr") .pynone
           let expr := pyStrip (if truthy ev then pyStrOfValue ev else [])
           if expr.isEmpty then
             [⟨S "error", S "Empty condition expression.", b.label, some b⟩]
           else lintText expr b.label (S "warn") (some b) true true true
         else []) ++
        (if b.ty = BLOCK_QUEST_CALL then
           let av := getParam b.params (S "args") .pynone
           let args := if truthy av then pyStrOfValue av else []
           lintText args b.label (S "warn") (some b) true true true
         else []))
  let base := issues1 ++ issues2 ++ issues3 ++ issues4 ++ issues4b ++ issues5
  -- 6) whole-script lint
  match generate_perl blocks plugin_registry Option.none with
  | .error e =>
    base ++ [⟨S "error", S "Failed to generate Perl for linting: " ++ genErrMsg e,
              S "root", Option.none⟩]
  | .ok perl =>
    base ++
    (if unbalancedQuotes perl then
       [⟨S "error", S "Whole script: unbalanced quotes.", S "root", Option.none⟩] else []) ++
    (let r := balancedPairs perl '(' ')'
     if !r.1 then
       [⟨S "error",
         if r.2 < 0 then S "Whole script: too many ')'." else S "Whole script: missing ')'.",
         S "root", Option.none⟩]
     else if r.2 ≠ 0 then
       [⟨S "error", S "Whole script: unbalanced parentheses.", S "root", Option.none⟩]
     else []) ++
    (let r := balancedPairs perl obr cbr
     if !r.1 then
       [⟨S "error",
         if r.2 < 0 then S "Whole script: too many '\x7d'."
         else S "Whole script: missing '\x7d'.",
         S "root", Option.none⟩]
     else if r.2 ≠ 0 then
       [⟨S "error", S "Whole script: unbalanced braces.", S "root", Option.none⟩]
     else [])

/-! ## Concrete fixtures used by the theorems -/

def emptyRegistry : PluginRegistry := ⟨[]⟩

/-- A catalog with one template carrying a required placeholder `x`. -/
def xPlugin : PluginDef := ⟨S "p1", S "Say", S "Chat", S "plugin::X(\x7bx\x7d);", [S "x"]⟩

def oneRegistry : PluginRegistry := ⟨[(S "p1", xPlugin)]⟩

/-- A plugin-invocation block referencing `p1` with no parameters supplied,
so rendering its template raises MissingParameter("x"). -/
def pluginMissingBlock : Block :=
  .mk BLOCK_PLUGIN (S "PB") [(S "plugin_id", .str (S "p1")), (S "plugin_params", .dict [])] []

/-- A plugin-invocation block referencing an id absent from the catalog. -/
def pluginUnknownBlock : Block :=
  .mk BLOCK_PLUGIN (S "PB") [(S "plugin_id", .str (S "nope"))] []

/-- A bare `return;` statement block. -/
def returnBlock : Block := .mk BLOCK_RETURN (S "return") [(S "value", .str [])] []

/-- One `EVENT_SAY` handler containing a bare return. -/
def eventSayReturn : Block :=
  .mk BLOCK_EVENT (S "EVENT_SAY") [(S "event_name", .str (S "EVENT_SAY"))] [returnBlock]

/-- A timer block named `respawn` with seconds `-1`. -/
def timerRespawnNeg : Block :=
  .mk BLOCK_TIMER (S "Timer")
    [(S "name", .str (S "respawn")), (S "seconds", .int (-1))] []

/-- A top-level `EVENT_SPAWN` handler with no body. -/
def eventSpawn : Block :=
  .mk BLOCK_EVENT (S "EVENT_SPAWN") [(S "event_name", .str (S "EVENT_SPAWN"))] []

/-- First generation of `eventSayReturn`. -/
def rtText1 : Str :=
  S "# Generated by EQEmu Script Builder v1.2\n\nsub EVENT_SAY \x7b\n    return;\n\x7d\n"

/-- Second generation after a parse round trip: the identification header is
re-emitted as a comment block, and the re-parsed return gained a second
statement terminator. -/
def rtText2 : Str :=
  S "# Generated by EQEmu Script Builder v1.2\n\n# Generated by EQEmu Script Builder v1.2\nsub EVENT_SAY \x7b\n    return ;;\n\x7d\n"

/-! ## A canonical round-trip family

Event-handler blocks with canonical event names whose children are
quest-invocation blocks with canonical function and argument text.  On this
family the generator's output re-parses and regenerates exactly, except for
the duplicated identification header. -/

/-- A nonempty all-word-character string. -/
def wordCharsNE (s : Str) : Bool := !s.isEmpty && s.all isWordChar

/-- A canonical quest-invocation leaf: exactly a `quest_fn`/`args` parameter
pair, a nonempty word-character function name other than `settimer`, and
argument text with no line-break character and no surrounding whitespace. -/
def canonQuest : Block → Bool
  | .mk t _ ps cs =>
    t = BLOCK_QUEST_CALL && cs.isEmpty &&
    (match ps with
     | [(k1, .str f), (k2, .str a)] =>
       k1 = S "quest_fn" && k2 = S "args" && wordCharsNE f && f ≠ S "settimer" &&
       pyStrip a = a && a.all (fun c => !isLineBreak c)
     | _ => false)

/-- A canonical event handler: exactly an `event_name` parameter of the form
`EVENT_` followed by word characters, children all canonical quest calls. -/
def canonEvent : Block → Bool
  | .mk t _ ps cs =>
    t = BLOCK_EVENT &&
    (match ps with
     | [(k, .str e)] =>
       k = S "event_name" && (S "EVENT_").isPrefixOf e && wordCharsNE (e.drop 6)
     | _ => false) &&
    cs.all canonQuest

/-- A tree of canonical event handlers. -/
def canonFam (bs : List Block) : Bool := bs.all canonEvent

/-- The generated line of a canonical quest call (depth 1). -/
def famQuestLine (q : Block) : Str :=
  S "    quest::" ++ pyStrOfValue (getParam q.params (S "quest_fn") (.str (S "say"))) ++
  S "(" ++ pyStrOfValue (getParam q.params (S "args") (.str (S "\"Hello, world!\""))) ++ S ");"

/-- The generated lines of a canonical event handler (depth 0). -/
def famEventLines (b : Block) : List Str :=
  (S "sub " ++ pyStrOfValue (getParam b.params (S "event_name") (.str (S "EVENT_SAY"))) ++ S " \x7b") ::
  b.children.map famQuestLine ++ [[cbr], []]

/-- The body lines generated for a canonical family. -/
def famLines (bs : List Block) : List Str := bs.flatMap famEventLines

/-! ## Round-trip support: the parsed forms of canonical blocks, the
header comment block, and the neutral parser state -/

def fnOf (q : Block) : Str := pyStrOfValue (getParam q.params (S "quest_fn") (.str (S "say")))
def argsOf (q : Block) : Str :=
  pyStrOfValue (getParam q.params (S "args") (.str (S "\"Hello, world!\"")))
def evOf (b : Block) : Str :=
  pyStrOfValue (getParam b.params (S "event_name") (.str (S "EVENT_SAY")))

def parsedQuest (q : Block) : Block :=
  .mk BLOCK_QUEST_CALL (S "quest::" ++ fnOf q ++ S "(" ++ argsOf q ++ S ")")
    [(S "quest_fn", .str (fnOf q)), (S "args", .str (argsOf q))] []

def parsedEvent (b : Block) : Block :=
  .mk BLOCK_EVENT (evOf b) [(S "event_name", .str (evOf b))] (b.children.map parsedQuest)

def headerCommentBlock : Block :=
  .mk BLOCK_COMMENT (S "# Generated by EQEmu Script Builder v1.2")
    [(S "text", .str (S "Generated by EQEmu Script Builder v1.2"))] []

def neutralState (roots : List Block) (stack : List Frame) : PState :=
  ⟨roots, stack, Option.none, Option.none, [], Option.none, [], 0, []⟩

def c1Quest : Block := .mk BLOCK_QUEST_CALL (S "quest::say")
  [(S "quest_fn", .str (S "say")), (S "args", .str (S "\"Hello\""))] []

def c1Event : Block := .mk BLOCK_EVENT (S "EVENT_SAY")
  [(S "event_name", .str (S "EVENT_SAY"))] [c1Quest]

/-! ## Helper lemmas -/

theorem pyRstrip_append_nonspace (u : Str) (c : Char) (h : isPySpace c = false) :
    pyRstrip (u ++ [c]) = u ++ [c] := by
  unfold pyRstrip
  rw [List.reverse_append]
  simp [List.dropWhile, h]

theorem stripOneSemi_append_semi (u : Str) (h : pyRstrip u = u) :
    stripOneSemi (u ++ [';']) = u := by
  unfold stripOneSemi endsWithSemi
  rw [pyRstrip_append_nonspace u ';' (by decide)]
  have hsuf : ([';'] : Str).isSuffixOf (u ++ [';']) = true := by
    simp [List.isSuffixOf, List.reverse_append, List.isPrefixOf]
  rw [hsuf]
  simp [List.dropLast_concat, h]

theorem pyEndsWith_two_semi (z : Str) :
    pyEndsWith (S ";;") (z ++ [';']) = pyEndsWith [';'] z := by
  simp [pyEndsWith, S, List.isSuffixOf, List.reverse_append, List.isPrefixOf]

theorem pyEndsWith_single_append (z w : Str) (hw : w ≠ []) :
    pyEndsWith [';'] (z ++ w) = pyEndsWith [';'] w := by
  cases hwr : w.reverse with
  | nil => exact absurd (List.reverse_eq_nil_iff.mp hwr) hw
  | cons d t =>
    simp [pyEndsWith, List.isSuffixOf, List.reverse_append, hwr, List.isPrefixOf]

theorem pyStrip_ne_nil_of_not_isEmpty (w : Str) (h : (pyStrip w).isEmpty = false) :
    w ≠ [] := by
  intro hw
  subst hw
  simp [pyStrip, pyLstrip, pyRstrip] at h

/-- The declare-scoped-variable branch of the generator, as a function of the
supplied value text. -/
theorem renderBlock_my_var (plugins : PluginRegistry) (lbl var v : Str) (ind : Nat) :
    renderBlock plugins
        (.mk BLOCK_MY_VAR lbl [(S "var_name", .str var), (S "value", .str v)] []) ind
      = .ok [emitLine ind (if !(pyStrip (stripOneSemi v)).isEmpty
          then S "my " ++ var ++ S " = " ++ stripOneSemi v ++ [';']
          else S "my " ++ var ++ S ";")] := by
  simp [renderBlock, getParam, assocGet, pyStrOfValue, S,
    BLOCK_MY_VAR, BLOCK_EVENT, BLOCK_NEXT, BLOCK_IF, BLOCK_WHILE, BLOCK_FOREACH,
    BLOCK_QUEST_CALL, BLOCK_ELSIF, BLOCK_ELSE, BLOCK_SET_VAR, BLOCK_ARRAY_ASSIGN]

/-- The declare-shared-variable branch of the generator. -/
theorem renderBlock_our_var (plugins : PluginRegistry) (lbl var v : Str) (ind : Nat) :
    renderBlock plugins
        (.mk BLOCK_OUR_VAR lbl [(S "var_name", .str var), (S "value", .str v)] []) ind
      = .ok [emitLine ind (if !(pyStrip (stripOneSemi v)).isEmpty
          then S "our " ++ var ++ S " = " ++ stripOneSemi v ++ [';']
          else S "our " ++ var ++ S ";")] := by
  simp [renderBlock, getParam, assocGet, pyStrOfValue, S,
    BLOCK_OUR_VAR, BLOCK_MY_VAR, BLOCK_EVENT, BLOCK_NEXT, BLOCK_IF, BLOCK_WHILE,
    BLOCK_FOREACH, BLOCK_QUEST_CALL, BLOCK_ELSIF, BLOCK_ELSE, BLOCK_SET_VAR,
    BLOCK_ARRAY_ASSIGN]

theorem fmap_error_iff {ε α β : Type} (f : α → β) (x : Except ε α) :
    (∃ e, (f <$> x) = Except.error e) ↔ ∃ e, x = Except.error e := by
  cases x <;> simp [Functor.map, Except.map]

theorem isIdentStart_isWordChar (c : Char) (h : isIdentStart c = true) :
    isWordChar c = true := by
  simp [isIdentStart] at h
  simp [isWordChar]
  tauto

theorem validPhName_all_word (n : Str) (h : validPhName n = true) :
    n.all isWordChar = true := by
  cases n with
  | nil => exact absurd h (by decide)
  | cons d ds =>
    simp only [validPhName, Bool.and_eq_true] at h
    simp only [List.all_cons, Bool.and_eq_true]
    exact ⟨isIdentStart_isWordChar d h.1, h.2⟩

/-- The renderer raises exactly when the scanner passes a placeholder whose
name is unbound, whatever the scanning mode. -/
theorem renderAux_error_iff (p : List (Str × PValue)) (s : Str) :
    ∀ (mode : Option Str),
      (∃ e, renderAux p mode s = .error e) ↔
      (∃ n, n ∈ placeholdersAux mode s ∧ assocGet p n = Option.none) := by
  induction s with
  | nil => intro mode; cases mode <;> simp [renderAux, placeholdersAux]
  | cons c rest ih =>
    intro mode
    cases mode with
    | none =>
      by_cases hc : c = obr
      · simp [renderAux, placeholdersAux, hc, ih]
      · simp [renderAux, placeholdersAux, hc, fmap_error_iff, ih]
    | some acc =>
      by_cases hc : c = cbr
      · by_cases hv : validPhName acc
        · cases hl : assocGet p acc with
          | some v => simp [renderAux, placeholdersAux, hc, hv, hl, fmap_error_iff, ih]
          | none => simp [renderAux, placeholdersAux, hc, hv, hl, ih]
        · simp [renderAux, placeholdersAux, hc, hv, fmap_error_iff, ih]
      · by_cases hw : isWordChar c
        · simp [renderAux, placeholdersAux, hc, hw, ih]
        · have hoc : ¬ (obr = cbr) := by decide
          have how : isWordChar obr = false := by decide
          by_cases hb : c = obr
          · simp [renderAux, placeholdersAux, hb, hoc, how, fmap_error_iff, ih]
          · simp [renderAux, placeholdersAux, hc, hw, hb, fmap_error_iff, ih]

/-- Brace-free literal text passes through the renderer untouched. -/
theorem render_append_no_obr (p : List (Str × PValue)) (t1 t2 : Str)
    (h : t1.all (fun c => c ≠ obr) = true) :
    render_plugin_template (t1 ++ t2) p =
      (fun out => t1 ++ out) <$> render_plugin_template t2 p := by
  unfold render_plugin_template
  induction t1 with
  | nil =>
    cases hx : renderAux p Option.none t2 <;> simp [hx, Functor.map, Except.map]
  | cons c t1' ih =>
    simp only [List.all_cons, Bool.and_eq_true] at h
    have hc : ¬ (c = obr) := by
      intro heq
      rw [heq] at h
      simp at h
    simp only [List.cons_append]
    have step : renderAux p Option.none (c :: (t1' ++ t2)) =
        (fun out => c :: out) <$> renderAux p Option.none (t1' ++ t2) := by
      simp [renderAux, hc]
    rw [step, ih h.2]
    cases hx : renderAux p Option.none t2 <;> simp [hx, Functor.map, Except.map]

/-- Scanning a word-character run inside a placeholder accumulates it. -/
theorem renderAux_accum (p : List (Str × PValue)) (n' : Str)
    (hall : n'.all isWordChar = true) :
    ∀ (acc t2 : Str),
      renderAux p (some acc) (n' ++ cbr :: t2) =
        renderAux p (some (acc ++ n')) (cbr :: t2) := by
  induction n' with
  | nil => intro acc t2; simp
  | cons c n'' ih =>
    intro acc t2
    simp only [List.all_cons, Bool.and_eq_true] at hall
    have hne : ¬ (c = cbr) := by
      intro heq
      rw [heq] at hall
      exact absurd hall.1 (by decide)
    simp only [List.cons_append]
    have step : renderAux p (some acc) (c :: (n'' ++ cbr :: t2)) =
        renderAux p (some (acc ++ [c])) (n'' ++ cbr :: t2) := by
      simp [renderAux, hne, hall.1]
    rw [step, ih hall.2]
    simp

/-- A bound placeholder occurrence substitutes its stringified value. -/
theorem render_placeholder_subst (p : List (Str × PValue)) (n : Str) (v : PValue)
    (t2 : Str) (hn : validPhName n = true) (hl : assocGet p n = some v) :
    render_plugin_template (obr :: n ++ cbr :: t2) p =
      (fun out => pyStrOrEmpty v ++ out) <$> render_plugin_template t2 p := by
  unfold render_plugin_template
  simp only [List.cons_append]
  have h0 : renderAux p Option.none (obr :: (n ++ cbr :: t2)) =
      renderAux p (some []) (n ++ cbr :: t2) := by
    simp [renderAux]
  rw [h0, renderAux_accum p n (validPhName_all_word n hn) [] t2]
  simp [renderAux, hn, hl]

/-- One-step unfolding of `renderBlocks` on a cons cell. -/
theorem renderBlocks_cons (plugins : PluginRegistry) (b : Block) (bs : List Block) (ind : Nat) :
    renderBlocks plugins (b :: bs) ind =
      (match renderBlock plugins b ind with
       | .error e => .error e
       | .ok l =>
         match renderBlocks plugins bs ind with
         | .error e => .error e
         | .ok ls => .ok (l ++ ls)) := rfl

/-- A block that renders to no lines contributes nothing to the rendered
sequence. -/
theorem renderBlocks_skip (plugins : PluginRegistry) (xs ys : List Block) (b : Block)
    (ind : Nat) (hb : renderBlock plugins b ind = .ok []) :
    renderBlocks plugins (xs ++ b :: ys) ind = renderBlocks plugins (xs ++ ys) ind := by
  induction xs with
  | nil =>
    simp only [List.nil_append]
    rw [renderBlocks_cons, hb]
    cases h : renderBlocks plugins ys ind <;> simp
  | cons x xs ih =>
    simp only [List.cons_append]
    rw [renderBlocks_cons, renderBlocks_cons plugins x (xs ++ ys), ih]

/-- The plugin branch with no selected template renders to no lines. -/
theorem renderBlock_plugin_noid (plugins : PluginRegistry) (lbl : Str)
    (ps : List (Str × PValue)) (cs : List Block) (ind : Nat)
    (h : truthy (getParam ps (S "plugin_id") .pynone) = false) :
    renderBlock plugins (.mk BLOCK_PLUGIN lbl ps cs) ind = .ok [] := by
  have hpid : (!truthy (getParam ps (S "plugin_id") PValue.pynone)) = true := by
    rw [h]
    rfl
  unfold renderBlock
  rw [if_neg (by decide : ¬ (BLOCK_PLUGIN = BLOCK_EVENT)),
      if_neg (by decide : ¬ (BLOCK_PLUGIN = BLOCK_NEXT)),
      if_neg (by decide : ¬ (BLOCK_PLUGIN = BLOCK_IF)),
      if_neg (by decide : ¬ (BLOCK_PLUGIN = BLOCK_WHILE)),
      if_neg (by decide : ¬ (BLOCK_PLUGIN = BLOCK_FOREACH)),
      if_neg (by decide : ¬ (BLOCK_PLUGIN = BLOCK_QUEST_CALL)),
      if_neg (by decide : ¬ (BLOCK_PLUGIN = BLOCK_ELSIF)),
      if_neg (by decide : ¬ (BLOCK_PLUGIN = BLOCK_ELSE)),
      if_neg (by decide : ¬ (BLOCK_PLUGIN = BLOCK_SET_VAR)),
      if_neg (by decide : ¬ (BLOCK_PLUGIN = BLOCK_ARRAY_ASSIGN)),
      if_neg (by decide : ¬ (BLOCK_PLUGIN = BLOCK_MY_VAR)),
      if_neg (by decide : ¬ (BLOCK_PLUGIN = BLOCK_OUR_VAR)),
      if_neg (by decide : ¬ (BLOCK_PLUGIN = BLOCK_SET_BUCKET)),
      if_neg (by decide : ¬ (BLOCK_PLUGIN = BLOCK_GET_BUCKET)),
      if_neg (by decide : ¬ (BLOCK_PLUGIN = BLOCK_DELETE_BUCKET)),
      if_neg (by decide : ¬ (BLOCK_PLUGIN = BLOCK_TIMER)),
      if_neg (by decide : ¬ (BLOCK_PLUGIN = BLOCK_FOR)),
      if_neg (by decide : ¬ (BLOCK_PLUGIN = BLOCK_RETURN)),
      if_neg (by decide : ¬ (BLOCK_PLUGIN = BLOCK_COMMENT)),
      if_pos (by decide : BLOCK_PLUGIN = BLOCK_PLUGIN)]
  simp [hpid]

/-! ## Claim theorems -/

set_option maxRecDepth 60000

/-- C1 (counterexample): for the canonical tree of one `EVENT_SAY` handler
containing a bare return, generate - parse - generate is NOT byte-identical:
the identification header is re-parsed as a comment block and re-emitted, and
the re-parsed return statement gains a second terminator. -/
theorem C1_roundtrip_not_byte_identical :
    generate_perl [eventSayReturn] emptyRegistry Option.none = .ok rtText1 ∧
    generate_perl (parse_perl_to_blocks rtText1 emptyRegistry) emptyRegistry Option.none
      = .ok rtText2 ∧
    rtText2 ≠ rtText1 :=
  ⟨rfl, rfl, by decide⟩

/-- C3 (counterexample): when a plugin block references an existing catalog
template whose rendering raises MissingParameter, `generate_perl` does NOT
degrade the block to a comment and continue — the exception propagates and
generation aborts, producing no output for the rest of the tree. -/
theorem C3_missing_param_aborts_generation :
    generate_perl [pluginMissingBlock, returnBlock] oneRegistry Option.none
      = .error (.missingParam (S "x")) :=
  rfl

/-- C3 (amended): a MissingParameter render failure propagates out of
generation (aborting it); the degrade-to-a-diagnostic-comment behaviour
applies to an unknown template id; validation reports the render failure of
the offending block as an error (followed by the whole-script generation
failure). -/
theorem C3_missing_param_propagates_unknown_id_degrades :
    generate_perl [pluginMissingBlock, returnBlock] oneRegistry Option.none
      = .error (.missingParam (S "x")) ∧
    generate_perl [pluginUnknownBlock] oneRegistry Option.none
      = .ok (S "# Generated by EQEmu Script Builder v1.2\n\n# [Unknown plugin: nope]") ∧
    validate_blocks [pluginMissingBlock] oneRegistry =
      [⟨S "warn", S "No EVENT block found (script will do nothing).", S "root", Option.none⟩,
       ⟨S "error", S "Plugin template render failed: Missing template param: x",
        S "PB", some pluginMissingBlock⟩,
       ⟨S "error", S "Failed to generate Perl for linting: Missing template param: x",
        S "root", Option.none⟩] :=
  ⟨rfl, rfl, rfl⟩

/-- C5: the single-pass balance scanner counts pairs only outside quotes and
honours escapes: `"(a (b)"` ends with a positive counter (missing closer),
`"a) (b"` drives the counter negative (too many closers), and the
single-quoted `'it\'s (ok)'` is balanced for parentheses and quotes; the
linter classifies the first two accordingly. -/
theorem C5_balance_scanner_cases :
    balancedPairs (S "(a (b)") '(' ')' = (false, 1) ∧
    balancedPairs (S "a) (b") '(' ')' = (false, -1) ∧
    balancedPairs (S "'it\\'s (ok)'") '(' ')' = (true, 0) ∧
    unbalancedQuotes (S "'it\\'s (ok)'") = false ∧
    (lintText (S "(a (b)") (S "L") (S "warn") Option.none true true false).map
        (fun i => i.message) = [S "Unbalanced parentheses (missing ')')."] ∧
    (lintText (S "a) (b") (S "L") (S "warn") Option.none true true false).map
        (fun i => i.message) = [S "Too many ')' (parentheses close before open)."] ∧
    lintText (S "'it\\'s (ok)'") (S "L") (S "warn") Option.none true true false = [] :=
  ⟨rfl, rfl, rfl, rfl, rfl, rfl, rfl⟩

/-- C7 (counterexample): parsing the literal single-line text
`if (A) { } elsif (B) { } else { }` does not produce three sibling blocks:
the greedy conditional recognizer captures up to the last `) {`, yielding a
single if-block whose expression swallows the elsif text. -/
theorem C7_single_line_parses_to_one_block :
    parse_perl_to_blocks (S "if (A) \x7b \x7d elsif (B) \x7b \x7d else \x7b \x7d")
        emptyRegistry =
      [.mk BLOCK_IF (S "if (A) \x7b \x7d elsif (B)")
        [(S "expr", .str (S "A) \x7b \x7d elsif (B"))] []] :=
  rfl

/-- C7 (amended): in the line-oriented layout the generator itself emits
(each opener and closer on its own line), `if (A) / elsif (B) / else` parse
to three consecutive same-depth sibling blocks, not nested under each other:
the closing-delimiter line pops the open conditional before the elsif/else
opener appends itself at sibling level. -/
theorem C7_line_oriented_elsif_else_siblings :
    parse_perl_to_blocks (S "if (A) \x7b\n\x7d\nelsif (B) \x7b\n\x7d\nelse \x7b\n\x7d")
        emptyRegistry =
      [.mk BLOCK_IF (S "if (A)") [(S "expr", .str (S "A"))] [],
       .mk BLOCK_ELSIF (S "elsif (B)") [(S "expr", .str (S "B"))] [],
       .mk BLOCK_ELSE (S "else") [] []] :=
  rfl

/-- C8: `for (my $i = 0; $i <= 10; $i++) { }` parses to a counted-for-loop
block with integer bounds 0 and 10, comparator `<=` and increment `++`,
while `for (my $i = $start; $i < $end; $i += 2) { }` keeps its bounds as
text. -/
theorem C8_for_loop_bounds_parsing :
    parse_perl_to_blocks (S "for (my $i = 0; $i <= 10; $i++) \x7b \x7d") emptyRegistry =
      [.mk BLOCK_FOR (S "for ($i=0..10 <= ++)")
        [(S "var_name", .str (S "$i")), (S "start", .int 0), (S "end", .int 10),
         (S "cmp_op", .str (S "<=")), (S "inc_expr", .str (S "++"))] []] ∧
    parse_perl_to_blocks (S "for (my $i = $start; $i < $end; $i += 2) \x7b \x7d")
        emptyRegistry =
      [.mk BLOCK_FOR (S "for ($i=$start..$end < += 2)")
        [(S "var_name", .str (S "$i")), (S "start", .str (S "$start")),
         (S "end", .str (S "$end")),
         (S "cmp_op", .str (S "<")), (S "inc_expr", .str (S "+= 2"))] []] :=
  ⟨rfl, rfl⟩

/-- C2 (counterexample): the parser is not total-coverage: a line opening a
non-event subroutine that is never closed is consumed by the accumulating
mode and dropped at end of input — `parse("sub Helper {")` returns an empty
tree, losing the input line entirely. -/
theorem C2_unterminated_sub_line_lost :
    parse_perl_to_blocks (S "sub Helper \x7b") emptyRegistry = [] :=
  rfl

/-- C9 (counterexample): the declare-variable branch strips exactly ONE
trailing terminator, so a supplied value ending in two terminators still
emits a double-terminated declaration line. -/
theorem C9_double_terminator_counterexample :
    renderBlock emptyRegistry
        (.mk BLOCK_MY_VAR (S "my")
          [(S "var_name", .str (S "$x")), (S "value", .str (S "1;;"))] []) 0
      = .ok [S "my $x = 1;;"] ∧
    pyEndsWith (S ";;") (S "my $x = 1;;") = true :=
  ⟨rfl, rfl⟩

/-- C9 (amended): the declare-scoped/shared branches strip exactly one
trailing terminator (after trailing-whitespace removal) before re-appending
one; when the stripped value does not itself end in a terminator and carries
no trailing whitespace, the emitted line ends in exactly one terminator and
the transformation is idempotent — regenerating from the strip-and-reappend
result produces the same line.  (A value ending in two terminators still
emits a doubled line: see the counterexample.) -/
theorem C9_strip_one_terminator_idempotent (plugins : PluginRegistry) (var v : Str)
    (h1 : endsWithSemi (stripOneSemi v) = false)
    (h2 : pyRstrip (stripOneSemi v) = stripOneSemi v)
    (h3 : (pyStrip (stripOneSemi v)).isEmpty = false) :
    (renderBlock plugins
        (.mk BLOCK_MY_VAR (S "my") [(S "var_name", .str var), (S "value", .str v)] []) 0
      = .ok [S "my " ++ var ++ S " = " ++ stripOneSemi v ++ [';']]) ∧
    (renderBlock plugins
        (.mk BLOCK_MY_VAR (S "my")
          [(S "var_name", .str var), (S "value", .str (stripOneSemi v ++ [';']))] []) 0
      = renderBlock plugins
          (.mk BLOCK_MY_VAR (S "my")
            [(S "var_name", .str var), (S "value", .str v)] []) 0) ∧
    (pyEndsWith (S ";;") (S "my " ++ var ++ S " = " ++ stripOneSemi v ++ [';']) = false) ∧
    (renderBlock plugins
        (.mk BLOCK_OUR_VAR (S "our") [(S "var_name", .str var), (S "value", .str v)] []) 0
      = .ok [S "our " ++ var ++ S " = " ++ stripOneSemi v ++ [';']]) ∧
    (renderBlock plugins
        (.mk BLOCK_OUR_VAR (S "our")
          [(S "var_name", .str var), (S "value", .str (stripOneSemi v ++ [';']))] []) 0
      = renderBlock plugins
          (.mk BLOCK_OUR_VAR (S "our")
            [(S "var_name", .str var), (S "value", .str v)] []) 0) := by
  have hidem : stripOneSemi (stripOneSemi v ++ [';']) = stripOneSemi v :=
    stripOneSemi_append_semi _ h2
  have hw : stripOneSemi v ≠ [] := pyStrip_ne_nil_of_not_isEmpty _ h3
  refine ⟨?_, ?_, ?_, ?_, ?_⟩
  · rw [renderBlock_my_var]
    simp [h3, emitLine]
  · rw [renderBlock_my_var, renderBlock_my_var, hidem]
  · have : S "my " ++ var ++ S " = " ++ stripOneSemi v ++ [';'] =
        (S "my " ++ var ++ S " = " ++ stripOneSemi v) ++ [';'] := by
      simp [List.append_assoc]
    rw [this, pyEndsWith_two_semi]
    rw [show S "my " ++ var ++ S " = " ++ stripOneSemi v =
        (S "my " ++ var ++ S " = ") ++ stripOneSemi v by simp [List.append_assoc]]
    rw [pyEndsWith_single_append _ _ hw]
    exact h1
  · rw [renderBlock_our_var]
    simp [h3, emitLine]
  · rw [renderBlock_our_var, renderBlock_our_var, hidem]

/-- C9 witness: the amended statement applied at value `"5;"`. -/
theorem C9_strip_one_terminator_idempotent_witness :
    endsWithSemi (stripOneSemi (S "5;")) = false ∧
    renderBlock emptyRegistry
        (.mk BLOCK_MY_VAR (S "my")
          [(S "var_name", .str (S "$x")), (S "value", .str (S "5;"))] []) 0
      = .ok [S "my " ++ S "$x" ++ S " = " ++ stripOneSemi (S "5;") ++ [';']] :=
  ⟨by decide,
   (C9_strip_one_terminator_idempotent emptyRegistry (S "$x") (S "5;")
      (by decide) (by decide) (by decide)).1⟩

/-- C10: a plugin-invocation block whose parameters carry no (truthy)
`plugin_id` emits zero lines — no diagnostic comment — and the rest of the
tree generates exactly as if the block were absent. -/
theorem C10_plugin_without_id_skipped (plugins : PluginRegistry) (npc : Option Int)
    (pre post : List Block) (lbl : Str) (ps : List (Str × PValue)) (cs : List Block)
    (h : truthy (getParam ps (S "plugin_id") .pynone) = false) :
    renderBlock plugins (.mk BLOCK_PLUGIN lbl ps cs) 0 = .ok [] ∧
    generate_perl (pre ++ (.mk BLOCK_PLUGIN lbl ps cs) :: post) plugins npc
      = generate_perl (pre ++ post) plugins npc := by
  refine ⟨renderBlock_plugin_noid plugins lbl ps cs 0 h, ?_⟩
  unfold generate_perl
  rw [renderBlocks_skip plugins pre post _ 0 (renderBlock_plugin_noid plugins lbl ps cs 0 h)]

/-- C10 witness: a plugin block with an empty parameter dict is skipped
between a return statement and nothing. -/
theorem C10_plugin_without_id_skipped_witness :
    generate_perl [returnBlock, .mk BLOCK_PLUGIN (S "PB") [] []] emptyRegistry Option.none
      = generate_perl [returnBlock] emptyRegistry Option.none :=
  (C10_plugin_without_id_skipped emptyRegistry (Option.none : Option Int)
    [returnBlock] ([] : List Block) (S "PB") ([] : List (Str × PValue))
    ([] : List Block) (by decide)).2

/-- C6: the validator (1) reports an error mentioning seconds for a timer
block named `respawn` with seconds `-1`; (2) for every tree in which some
timer is set but no top-level `EVENT_TIMER` handler exists, emits the
whole-script warning; and (3) warns about duplicate top-level handlers when
two event blocks both carry `EVENT_SPAWN`. -/
theorem C6_validator_timer_and_duplicate_checks :
    (validate_blocks [timerRespawnNeg] emptyRegistry =
      [⟨S "warn", S "No EVENT block found (script will do nothing).", S "root", Option.none⟩,
       ⟨S "error", S "Timer seconds must be >= 0.", S "Timer", some timerRespawnNeg⟩,
       ⟨S "warn", S "You set timers but have no EVENT_TIMER handler.", S "root", Option.none⟩] ∧
     containsSub (S "seconds") (S "Timer seconds must be >= 0.") = true) ∧
    (∀ (bs : List Block) (reg : PluginRegistry),
      (timerNames bs).isEmpty = false → hasEventTimer bs = false →
      (⟨S "warn", S "You set timers but have no EVENT_TIMER handler.", S "root",
        Option.none⟩ : ValidationIssue) ∈ validate_blocks bs reg) ∧
    validate_blocks [eventSpawn, eventSpawn] emptyRegistry =
      [⟨S "warn",
        S "Duplicate top-level handler: EVENT_SPAWN appears 2 times (often accidental).",
        S "EVENT_SPAWN", Option.none⟩] := by
  refine ⟨⟨rfl, rfl⟩, ?_, rfl⟩
  intro bs reg h1 h2
  unfold validate_blocks
  simp only [h1, h2, Bool.not_false, Bool.and_self, eq_self_iff_true, if_true]
  split
  · refine List.mem_append.mpr (Or.inl ?_)
    refine List.mem_append.mpr (Or.inl ?_)
    refine List.mem_append.mpr (Or.inr ?_)
    exact List.mem_cons_self _ _
  · refine List.mem_append.mpr (Or.inl ?_)
    refine List.mem_append.mpr (Or.inl ?_)
    refine List.mem_append.mpr (Or.inl ?_)
    refine List.mem_append.mpr (Or.inl ?_)
    refine List.mem_append.mpr (Or.inr ?_)
    exact List.mem_cons_self _ _

/-- C6 witness: the universal timer-warning clause applied to the concrete
`respawn` timer tree. -/
theorem C6_validator_timer_and_duplicate_checks_witness :
    (timerNames [timerRespawnNeg]).isEmpty = false ∧
    hasEventTimer [timerRespawnNeg] = false ∧
    (⟨S "warn", S "You set timers but have no EVENT_TIMER handler.", S "root",
      Option.none⟩ : ValidationIssue) ∈ validate_blocks [timerRespawnNeg] emptyRegistry :=
  ⟨by decide, by decide,
   C6_validator_timer_and_duplicate_checks.2.1 [timerRespawnNeg] emptyRegistry
     (by decide) (by decide)⟩

/-- C4: the template renderer substitutes every placeholder occurrence
(repeated ones included) with the stringified parameter value, leaves
brace-free text untouched, raises MissingParameter exactly when some
placeholder lacks an entry, and in particular maps the two quoted examples
as specified. -/
theorem C4_render_placeholder_semantics :
    (render_plugin_template (S "\x7ba\x7d \x7ba\x7d") [(S "a", .str (S "z"))] = .ok (S "z z")) ∧
    (render_plugin_template (S "\x7bx\x7d") [] = .error (S "x")) ∧
    (∀ (t : Str) (p : List (Str × PValue)),
      (∃ e, render_plugin_template t p = .error e) ↔
      (∃ n, n ∈ placeholdersOf t ∧ assocGet p n = Option.none)) ∧
    (∀ (t1 t2 : Str) (p : List (Str × PValue)), t1.all (fun c => c ≠ obr) = true →
      render_plugin_template (t1 ++ t2) p =
        (fun out => t1 ++ out) <$> render_plugin_template t2 p) ∧
    (∀ (n : Str) (v : PValue) (t2 : Str) (p : List (Str × PValue)),
      validPhName n = true → assocGet p n = some v →
      render_plugin_template (obr :: n ++ cbr :: t2) p =
        (fun out => pyStrOrEmpty v ++ out) <$> render_plugin_template t2 p) :=
  ⟨rfl, rfl,
   fun t p => renderAux_error_iff p t Option.none,
   fun t1 t2 p h => render_append_no_obr p t1 t2 h,
   fun n v t2 p hn hl => render_placeholder_subst p n v t2 hn hl⟩

/-- C4 witness: the universal clauses instantiated at concrete templates. -/
theorem C4_render_placeholder_semantics_witness :
    ((∃ e, render_plugin_template (S "\x7bq\x7d") [] = .error e) ↔
      (∃ n, n ∈ placeholdersOf (S "\x7bq\x7d") ∧ assocGet [] n = Option.none)) ∧
    render_plugin_template (S "ab" ++ S "\x7bk\x7d") [(S "k", .str (S "v"))] =
      (fun out => S "ab" ++ out) <$> render_plugin_template (S "\x7bk\x7d") [(S "k", .str (S "v"))] ∧
    render_plugin_template (obr :: S "k" ++ cbr :: S "!") [(S "k", .str (S "v"))] =
      (fun out => pyStrOrEmpty (.str (S "v")) ++ out) <$>
        render_plugin_template (S "!") [(S "k", .str (S "v"))] :=
  ⟨C4_render_placeholder_semantics.2.2.1 (S "\x7bq\x7d") [],
   C4_render_placeholder_semantics.2.2.2.1 (S "ab") (S "\x7bk\x7d")
     [(S "k", .str (S "v"))] (by decide),
   C4_render_placeholder_semantics.2.2.2.2 (S "k") (.str (S "v")) (S "!")
     [(S "k", .str (S "v"))] (by decide) (by rfl)⟩

/-- C2 (amended): while no multi-line accumulation is active, a nonblank
line that is not a comment, not a closing delimiter, and matched by no
recognizer (literal or plugin-derived) is preserved verbatim as a
raw-passthrough block appended at the current insertion point. -/
theorem C2_unmatched_line_raw_passthrough
    (pats : List (PluginDef × List PAtom)) (st : PState) (line : Str)
    (c : Char) (cs : Str)
    (hsub : st.subName = Option.none) (hml : st.mlKind = Option.none)
    (hstr : pyStrip (rstripNewline line) = c :: cs)
    (hhash : c ≠ '#') (hbrace : c ≠ cbr)
    (h1 : matchMultilineDeclStart (c :: cs) = Option.none)
    (h2 : matchSubEvent (c :: cs) = Option.none)
    (h3 : matchSubAny (c :: cs) = Option.none)
    (h4 : matchNext (c :: cs) = Option.none)
    (h5 : matchIf (c :: cs) = Option.none)
    (h6 : matchElsif (c :: cs) = Option.none)
    (h7 : matchElse (c :: cs) = false)
    (h8 : matchWhile (c :: cs) = Option.none)
    (h9 : matchForeach (c :: cs) = Option.none)
    (h10 : matchFor (c :: cs) = Option.none)
    (h11 : matchSettimer (c :: cs) = Option.none)
    (h12 : matchQuest (c :: cs) = Option.none)
    (h13 : matchDecl (S "my") (c :: cs) = Option.none)
    (h14 : matchDecl (S "our") (c :: cs) = Option.none)
    (h15 : matchBucketSet (c :: cs) = Option.none)
    (h16 : matchBucketGet (c :: cs) = Option.none)
    (h17 : matchBucketDelete (c :: cs) = Option.none)
    (h18 : matchArrayAssign (c :: cs) = Option.none)
    (h19 : matchSetvar (c :: cs) = Option.none)
    (h20 : matchMethod (c :: cs) = Option.none)
    (h21 : matchReturn (c :: cs) = Option.none)
    (h22 : pats.findSome?
        (fun pa => (matchAtoms pa.2 (c :: cs)).map (fun binds => (pa.1, binds)))
      = Option.none) :
    parseLine pats st line =
      addBlock (flushComment st)
        (.mk BLOCK_RAW_PERL (S "Raw Perl") [(S "code", .str (rstripNewline line))] []) := by
  unfold parseLine
  simp only [hsub, hml, hstr, Option.isSome_none, Bool.false_eq_true, if_false,
    List.isEmpty_cons]
  split
  · rename_i heq
    exact absurd (List.head_eq_of_cons_eq heq.symm).symm hhash
  · simp only [List.headD_cons, h1, h2, h3]
    rw [if_neg (by simpa using hbrace)]
    unfold parseLineRest
    simp only [h4, h5, h6, h7, h8, h9, h10, h11, h12, h13, h14, h15, h16, h17,
      h18, h19, h20, h21, h22, Bool.false_eq_true, if_false]

/-- C2 witness: the raw-passthrough theorem applied to the unmatched line
`@@@` in the initial state with an empty catalog. -/
theorem C2_unmatched_line_raw_passthrough_witness :
    parseLine [] initState (S "@@@") =
      addBlock (flushComment initState)
        (.mk BLOCK_RAW_PERL (S "Raw Perl")
          [(S "code", .str (rstripNewline (S "@@@")))] []) :=
  C2_unmatched_line_raw_passthrough [] initState (S "@@@") '@' (S "@@")
    rfl rfl rfl (by decide) (by decide)
    rfl rfl rfl rfl rfl rfl rfl rfl rfl rfl rfl rfl rfl rfl rfl rfl rfl rfl rfl rfl rfl rfl

/-! ## Round-trip lemmas and the amended C1 theorem -/

theorem isWordChar_not_space (c : Char) (h : isWordChar c = true) : isPySpace c = false := by
  simp only [isWordChar, Bool.or_eq_true, Bool.and_eq_true, decide_eq_true_eq] at h
  have hup : c ≤ 'z' := by
    rcases h with ((⟨_, h2⟩ | ⟨_, h2⟩) | ⟨_, h2⟩) | h2
    · exact h2
    · exact le_trans h2 (by decide)
    · exact le_trans h2 (by decide)
    · subst h2; decide
  have hlow : ' ' < c := by
    rcases h with ((⟨h2, _⟩ | ⟨h2, _⟩) | ⟨h2, _⟩) | h2
    · exact lt_of_lt_of_le (by decide) h2
    · exact lt_of_lt_of_le (by decide) h2
    · exact lt_of_lt_of_le (by decide) h2
    · subst h2; decide
  by_contra hsp
  rw [Bool.not_eq_false] at hsp
  simp only [isPySpace, Bool.or_eq_true, Bool.and_eq_true, decide_eq_true_eq] at hsp
  rcases hsp with
    ((((((((((((((((((h1) | h1) | h1) | h1) | h1) | h1) | h1) | h1) | h1) | h1) | h1) | h1) | h1) | ⟨hr, _⟩) | h1) | h1) | h1) | h1) | h1
  case inr.intro => exact absurd (le_trans hr hup) (by decide)
  all_goals subst h1
  all_goals first
    | exact absurd hlow (by decide)
    | exact absurd hup (by decide)

theorem takeWhile_all_append (p : Char → Bool) (xs : Str) (y : Char) (ys : Str)
    (hxs : xs.all p = true) (hy : p y = false) :
    (xs ++ y :: ys).takeWhile p = xs := by
  induction xs with
  | nil => simp [List.takeWhile, hy]
  | cons c cs ih =>
    simp only [List.all_cons, Bool.and_eq_true] at hxs
    simp [List.takeWhile, hxs.1, ih hxs.2]

theorem expectLit_sound (pat : Str) : ∀ (s r : Str), expectLit pat s = some r → s = pat ++ r := by
  induction pat with
  | nil => intro s r h; simp [expectLit] at h; simp [h]
  | cons c cs ih =>
    intro s r h
    cases s with
    | nil => simp [expectLit] at h
    | cons d ds =>
      simp only [expectLit] at h
      by_cases hcd : c = d
      · rw [if_pos hcd] at h
        rw [← hcd]
        simpa using ih ds r h
      · rw [if_neg hcd] at h
        exact absurd h (by simp)

theorem expectLit_append (p1 p2 : Str) : ∀ (s : Str), expectLit (p1 ++ p2) (p1 ++ s) = expectLit p2 s := by
  induction p1 with
  | nil => intro s; simp
  | cons c cs ih => intro s; simp [expectLit, ih]

theorem findLastSplit_close (x : Str) :
    findLastSplit (S ");") (x ++ S ");") = some (x, []) := by
  induction x with
  | nil => rfl
  | cons c cs ih => simp [findLastSplit, ih]

theorem pyLstrip_wordchar_head (c : Char) (t : Str) (h : isWordChar c = true) :
    pyLstrip (c :: t) = c :: t := by
  simp [pyLstrip, List.dropWhile, isWordChar_not_space c h]

theorem pyRstrip_wordchars (f : Str) (h : f.all isWordChar = true) : pyRstrip f = f := by
  cases hr : f.reverse with
  | nil => simp [pyRstrip, hr, List.reverse_eq_nil_iff.mp hr]
  | cons d t =>
    have hd : isWordChar d = true := by
      have : d ∈ f := by
        have : d ∈ f.reverse := by rw [hr]; exact List.mem_cons_self d t
        simpa using this
      exact List.all_eq_true.mp h d this
    simp [pyRstrip, hr, List.dropWhile, isWordChar_not_space d hd]
    calc t.reverse ++ [d] = (d :: t).reverse := by simp
      _ = f.reverse.reverse := by rw [hr]
      _ = f := by simp

theorem pyStrip_wordchars (f : Str) (h : f.all isWordChar = true) : pyStrip f = f := by
  unfold pyStrip
  rw [pyRstrip_wordchars f h]
  cases f with
  | nil => rfl
  | cons c t =>
    simp only [List.all_cons, Bool.and_eq_true] at h
    exact pyLstrip_wordchar_head c t h.1


theorem matchSubEvent_family (w : Str) (hw : w.all isWordChar = true) (hne : w.isEmpty = false) :
    matchSubEvent (S "sub EVENT_" ++ (w ++ S " \x7b")) = some (S "EVENT_" ++ w) := by
  have hsp : S " \x7b" = ' ' :: [obr] := rfl
  have e1 : matchSubEvent (S "sub EVENT_" ++ (w ++ S " \x7b")) =
      (let tw := (w ++ S " \x7b").takeWhile isWordChar
       if tw.isEmpty then Option.none
       else match skipSpaces ((w ++ S " \x7b").drop tw.length) with
         | c :: _ => if c = obr then some (S "EVENT_" ++ tw) else Option.none
         | [] => Option.none) := rfl
  rw [e1]
  simp only [hsp]
  rw [takeWhile_all_append isWordChar w ' ' [obr] hw (by decide)]
  simp only [hne, Bool.false_eq_true, if_false, List.drop_left]
  rfl

theorem matchQuest_family (f a : Str) (hf : f.all isWordChar = true)
    (hne : f.isEmpty = false) :
    matchQuest (S "quest::" ++ (f ++ ('(' :: (a ++ S ");")))) = some (f, a) := by
  have e1 : matchQuest (S "quest::" ++ (f ++ ('(' :: (a ++ S ");")))) =
      (let fn := (f ++ ('(' :: (a ++ S ");"))).takeWhile isWordChar
       if fn.isEmpty then Option.none
       else do
         let r2 ← expectChar '(' ((f ++ ('(' :: (a ++ S ");"))).drop fn.length)
         let pq ← findLastSplit (S ");") r2
         some (fn, pq.1)) := rfl
  rw [e1]
  rw [takeWhile_all_append isWordChar f '(' (a ++ S ");") hf (by decide)]
  simp only [hne, Bool.false_eq_true, if_false, List.drop_left]
  show (do
    let pq ← findLastSplit (S ");") (a ++ S ");")
    some ((f, pq.1) : Str × Str)) = some (f, a)
  rw [findLastSplit_close a]
  rfl

theorem matchSettimer_family (f a : Str) (hf : f.all isWordChar = true)
    (hne : f ≠ S "settimer") :
    matchSettimer (S "quest::" ++ (f ++ ('(' :: (a ++ S ");")))) = Option.none := by
  have e0 : S "quest::settimer(" = S "quest::" ++ S "settimer(" := rfl
  cases hel : expectLit (S "settimer(") (f ++ ('(' :: (a ++ S ");"))) with
  | none =>
    unfold matchSettimer
    rw [e0, expectLit_append, hel]
    rfl
  | some r0 =>
    exfalso
    have heq : f ++ ('(' :: (a ++ S ");")) = S "settimer(" ++ r0 :=
      expectLit_sound (S "settimer(") _ r0 hel
    rcases List.append_eq_append_iff.mp heq with ⟨mid, hm1, hm2⟩ | ⟨mid, hm1, _⟩
    · cases mid with
      | nil =>
        have hfs : f = S "settimer(" := by simpa using hm1.symm
        have : isWordChar '(' = true :=
          List.all_eq_true.mp hf '(' (by rw [hfs]; decide)
        exact absurd this (by decide)
      | cons d mid2 =>
        have hd : d = '(' := (List.head_eq_of_cons_eq hm2.symm)
        subst hd
        have hL : (S "settimer(").takeWhile isWordChar = S "settimer" := by decide
        rw [hm1, takeWhile_all_append isWordChar f '(' mid2 hf (by decide)] at hL
        exact hne hL
    · have : isWordChar '(' = true :=
        List.all_eq_true.mp hf '('
          (by rw [hm1]; exact List.mem_append.mpr (Or.inl (by decide)))
      exact absurd this (by decide)

theorem flushComment_empty (st : PState) (h : st.commentAcc = []) : flushComment st = st := by
  unfold flushComment
  rw [h]

theorem rstripNewline_append_nonnl (u : Str) (c : Char) (h : ¬ (c = '\n')) :
    rstripNewline (u ++ [c]) = u ++ [c] := by
  unfold rstripNewline
  rw [List.reverse_append]
  simp [List.dropWhile, h]

theorem parseLine_blank (pats : List (PluginDef × List PAtom)) (st : PState)
    (hsub : st.subName = Option.none) (hml : st.mlKind = Option.none)
    (hca : st.commentAcc = []) :
    parseLine pats st [] = st := by
  unfold parseLine
  simp only [hsub, hml, Option.isSome_none, Bool.false_eq_true, if_false]
  have h1 : pyStrip (rstripNewline []) = [] := rfl
  simp only [h1, List.isEmpty_nil, if_true]
  exact flushComment_empty st hca

theorem parseLine_close (pats : List (PluginDef × List PAtom)) (st : PState)
    (hsub : st.subName = Option.none) (hml : st.mlKind = Option.none)
    (hca : st.commentAcc = []) :
    parseLine pats st [cbr] = popFrame st := by
  unfold parseLine
  simp only [hsub, hml, Option.isSome_none, Bool.false_eq_true, if_false]
  have h1 : pyStrip (rstripNewline [cbr]) = cbr :: [] := rfl
  simp only [h1, List.isEmpty_cons, Bool.false_eq_true, if_false]
  split
  · rename_i heq
    exact absurd (List.head_eq_of_cons_eq heq.symm).symm (by decide)
  · rw [flushComment_empty st hca]
    simp

theorem parseLine_event (pats : List (PluginDef × List PAtom)) (st : PState) (w : Str)
    (hsub : st.subName = Option.none) (hml : st.mlKind = Option.none)
    (hca : st.commentAcc = [])
    (hw : w.all isWordChar = true) (hne : w.isEmpty = false) :
    parseLine pats st (S "sub EVENT_" ++ (w ++ S " \x7b")) =
      pushFrame st ⟨BLOCK_EVENT, S "EVENT_" ++ w,
        [(S "event_name", .str (S "EVENT_" ++ w))], []⟩ := by
  have hsp : S " \x7b" = [' '] ++ [obr] := rfl
  have hform : S "sub EVENT_" ++ (w ++ S " \x7b") =
      (S "sub EVENT_" ++ (w ++ [' '])) ++ [obr] := by
    rw [hsp]
    simp [List.append_assoc]
  have hrs : rstripNewline (S "sub EVENT_" ++ (w ++ S " \x7b")) =
      S "sub EVENT_" ++ (w ++ S " \x7b") := by
    rw [hform, rstripNewline_append_nonnl _ _ (by decide), ← hform]
  have hps : pyStrip (S "sub EVENT_" ++ (w ++ S " \x7b")) =
      S "sub EVENT_" ++ (w ++ S " \x7b") := by
    unfold pyStrip
    rw [hform, pyRstrip_append_nonspace _ _ (by decide), ← hform]
    rfl
  have hstr : pyStrip (rstripNewline (S "sub EVENT_" ++ (w ++ S " \x7b"))) =
      's' :: (S "ub EVENT_" ++ (w ++ S " \x7b")) := by
    rw [hrs, hps]
    rfl
  unfold parseLine
  simp only [hsub, hml, Option.isSome_none, Bool.false_eq_true, if_false, hstr,
    List.isEmpty_cons]
  split
  · rename_i heq
    exact absurd (List.head_eq_of_cons_eq heq.symm).symm (by decide)
  · rw [flushComment_empty st hca]
    simp only [List.headD_cons]
    rw [if_neg (by decide)]
    have hm1 : matchMultilineDeclStart ('s' :: (S "ub EVENT_" ++ (w ++ S " \x7b")))
        = Option.none := rfl
    have hm2 : matchSubEvent ('s' :: (S "ub EVENT_" ++ (w ++ S " \x7b")))
        = some (S "EVENT_" ++ w) := matchSubEvent_family w hw hne
    simp only [hm1, hm2, hrs]

theorem parseLine_quest (pats : List (PluginDef × List PAtom)) (st : PState) (f a : Str)
    (hsub : st.subName = Option.none) (hml : st.mlKind = Option.none)
    (hca : st.commentAcc = [])
    (hf : f.all isWordChar = true) (hfne : f.isEmpty = false)
    (hfs : f ≠ S "settimer") (ha : pyStrip a = a) :
    parseLine pats st (S "    quest::" ++ (f ++ ('(' :: (a ++ S ");")))) =
      addBlock st (.mk BLOCK_QUEST_CALL
        (S "quest::" ++ (f ++ (S "(" ++ (a ++ S ")"))))
        [(S "quest_fn", .str f), (S "args", .str a)] []) := by
  have hsemi : S ");" = [')'] ++ [';'] := rfl
  have hform : S "    quest::" ++ (f ++ ('(' :: (a ++ S ");"))) =
      (S "    quest::" ++ (f ++ ('(' :: (a ++ [')'])))) ++ [';'] := by
    rw [hsemi]
    simp [List.append_assoc]
  have hform2 : S "quest::" ++ (f ++ ('(' :: (a ++ S ");"))) =
      (S "quest::" ++ (f ++ ('(' :: (a ++ [')'])))) ++ [';'] := by
    rw [hsemi]
    simp [List.append_assoc]
  have hrs : rstripNewline (S "    quest::" ++ (f ++ ('(' :: (a ++ S ");")))) =
      S "    quest::" ++ (f ++ ('(' :: (a ++ S ");"))) := by
    rw [hform, rstripNewline_append_nonnl _ _ (by decide), ← hform]
  have hlst : pyLstrip (S "    quest::" ++ (f ++ ('(' :: (a ++ S ");")))) =
      S "quest::" ++ (f ++ ('(' :: (a ++ S ");"))) := rfl
  have hps : pyStrip (S "    quest::" ++ (f ++ ('(' :: (a ++ S ");")))) =
      S "quest::" ++ (f ++ ('(' :: (a ++ S ");"))) := by
    unfold pyStrip
    rw [hform, pyRstrip_append_nonspace _ _ (by decide), ← hform, hlst]
  have hstr : pyStrip (rstripNewline (S "    quest::" ++ (f ++ ('(' :: (a ++ S ");"))))) =
      'q' :: (S "uest::" ++ (f ++ ('(' :: (a ++ S ");")))) := by
    rw [hrs, hps]
    rfl
  unfold parseLine
  simp only [hsub, hml, Option.isSome_none, Bool.false_eq_true, if_false, hstr,
    List.isEmpty_cons]
  split
  · rename_i heq
    exact absurd (List.head_eq_of_cons_eq heq.symm).symm (by decide)
  · rw [flushComment_empty st hca]
    simp only [List.headD_cons]
    rw [if_neg (by decide)]
    have hm1 : matchMultilineDeclStart ('q' :: (S "uest::" ++ (f ++ ('(' :: (a ++ S ");")))))
        = Option.none := rfl
    have hm2 : matchSubEvent ('q' :: (S "uest::" ++ (f ++ ('(' :: (a ++ S ");")))))
        = Option.none := rfl
    have hm3 : matchSubAny ('q' :: (S "uest::" ++ (f ++ ('(' :: (a ++ S ");")))))
        = Option.none := rfl
    simp only [hm1, hm2, hm3]
    unfold parseLineRest
    have hm4 : matchNext ('q' :: (S "uest::" ++ (f ++ ('(' :: (a ++ S ");")))))
        = Option.none := rfl
    have hm5 : matchIf ('q' :: (S "uest::" ++ (f ++ ('(' :: (a ++ S ");")))))
        = Option.none := rfl
    have hm6 : matchElsif ('q' :: (S "uest::" ++ (f ++ ('(' :: (a ++ S ");")))))
        = Option.none := rfl
    have hm7 : matchElse ('q' :: (S "uest::" ++ (f ++ ('(' :: (a ++ S ");")))))
        = false := rfl
    have hm8 : matchWhile ('q' :: (S "uest::" ++ (f ++ ('(' :: (a ++ S ");")))))
        = Option.none := rfl
    have hm9 : matchForeach ('q' :: (S "uest::" ++ (f ++ ('(' :: (a ++ S ");")))))
        = Option.none := rfl
    have hm10 : matchFor ('q' :: (S "uest::" ++ (f ++ ('(' :: (a ++ S ");")))))
        = Option.none := rfl
    have hm11 : matchSettimer ('q' :: (S "uest::" ++ (f ++ ('(' :: (a ++ S ");")))))
        = Option.none := matchSettimer_family f a hf hfs
    have hm12 : matchQuest ('q' :: (S "uest::" ++ (f ++ ('(' :: (a ++ S ");")))))
        = some (f, a) := matchQuest_family f a hf hfne
    simp only [hm4, hm5, hm6, hm7, hm8, hm9, hm10, hm11, hm12, Bool.false_eq_true,
      if_false]
    rw [pyStrip_wordchars f hf, ha]
    simp [List.append_assoc]

theorem canonQuest_fields (t lbl : Str) (ps : List (Str × PValue)) (cs : List Block)
    (h : canonQuest (.mk t lbl ps cs) = true) :
    ∃ f a, t = BLOCK_QUEST_CALL ∧ cs = [] ∧
      ps = [(S "quest_fn", PValue.str f), (S "args", PValue.str a)] ∧
      f.isEmpty = false ∧ f.all isWordChar = true ∧ f ≠ S "settimer" ∧
      pyStrip a = a ∧ (∀ c ∈ a, isLineBreak c = false) := by
  unfold canonQuest at h
  rcases ps with _ | ⟨⟨k1, v1⟩, ps1⟩
  · simp at h
  rcases ps1 with _ | ⟨⟨k2, v2⟩, ps2⟩
  · cases v1 <;> simp at h
  rcases ps2 with _ | ⟨p3, ps3⟩
  · cases v1 <;> cases v2
    case str.str f a =>
      simp only [Bool.and_eq_true, decide_eq_true_eq, wordCharsNE, Bool.not_eq_true',
        List.all_eq_true, List.isEmpty_iff] at h
      obtain ⟨⟨ht, hcs⟩, ⟨⟨⟨⟨hk1, hk2⟩, hne, hw⟩, hfs⟩, ha⟩, hnl⟩ := h
      subst hk1; subst hk2
      refine ⟨f, a, ht, hcs, rfl, hne, ?_, hfs, ha, ?_⟩
      · exact List.all_eq_true.mpr hw
      · intro c hc
        exact hnl c hc
    all_goals simp at h
  · cases v1 <;> cases v2 <;> simp at h

theorem prefix_drop_eq (p e : Str) (h : p.isPrefixOf e = true) :
    e = p ++ e.drop p.length := by
  induction p generalizing e with
  | nil => simp
  | cons c t ih =>
    cases e with
    | nil => simp [List.isPrefixOf] at h
    | cons d u =>
      simp only [List.isPrefixOf, Bool.and_eq_true, beq_iff_eq] at h
      obtain ⟨hcd, hrest⟩ := h
      simp only [List.length_cons, List.drop_succ_cons, List.cons_append, hcd]
      exact congrArg (d :: ·) (ih u hrest)

theorem canonEvent_fields (t lbl : Str) (ps : List (Str × PValue)) (cs : List Block)
    (h : canonEvent (.mk t lbl ps cs) = true) :
    ∃ w, t = BLOCK_EVENT ∧
      ps = [(S "event_name", PValue.str (S "EVENT_" ++ w))] ∧
      w.isEmpty = false ∧ w.all isWordChar = true ∧
      cs.all canonQuest = true := by
  unfold canonEvent at h
  rcases ps with _ | ⟨⟨k1, v1⟩, ps1⟩
  · simp at h
  rcases ps1 with _ | ⟨p2, ps2⟩
  · cases v1
    case str e =>
      simp only [Bool.and_eq_true, decide_eq_true_eq, wordCharsNE, Bool.not_eq_true',
        List.all_eq_true, List.isEmpty_iff] at h
      obtain ⟨⟨ht, ⟨⟨hk, hpre⟩, hne, hw⟩⟩, hcs⟩ := h
      subst hk
      refine ⟨e.drop 6, ht, ?_, hne, List.all_eq_true.mpr hw, List.all_eq_true.mpr hcs⟩
      have h6 : (S "EVENT_").length = 6 := rfl
      have he := prefix_drop_eq (S "EVENT_") e hpre
      rw [h6] at he
      rw [← he]
    all_goals simp at h
  · cases v1 <;> simp at h

theorem famQuestLine_canon (lbl f a : Str) :
    famQuestLine (Block.mk BLOCK_QUEST_CALL lbl
        [(S "quest_fn", PValue.str f), (S "args", PValue.str a)] []) =
      S "    quest::" ++ (f ++ ('(' :: (a ++ S ");"))) := by
  show S "    quest::" ++ f ++ S "(" ++ a ++ S ");" = _
  simp only [List.append_assoc]
  rfl

theorem parsedQuest_canon (lbl f a : Str) :
    parsedQuest (Block.mk BLOCK_QUEST_CALL lbl
        [(S "quest_fn", PValue.str f), (S "args", PValue.str a)] []) =
      Block.mk BLOCK_QUEST_CALL (S "quest::" ++ (f ++ (S "(" ++ (a ++ S ")"))))
        [(S "quest_fn", PValue.str f), (S "args", PValue.str a)] [] := by
  have hfn : fnOf (Block.mk BLOCK_QUEST_CALL lbl
      [(S "quest_fn", PValue.str f), (S "args", PValue.str a)] []) = f := rfl
  have harg : argsOf (Block.mk BLOCK_QUEST_CALL lbl
      [(S "quest_fn", PValue.str f), (S "args", PValue.str a)] []) = a := rfl
  unfold parsedQuest
  rw [hfn, harg]
  simp only [List.append_assoc]

theorem foldl_quest_lines (pats : List (PluginDef × List PAtom)) (qs : List Block)
    (hca : qs.all canonQuest = true) (r : List Block)
    (ft fl : Str) (fp : List (Str × PValue)) (fc : List Block) (rest : List Frame) :
    List.foldl (parseLine pats) (neutralState r (⟨ft, fl, fp, fc⟩ :: rest))
        (qs.map famQuestLine) =
      neutralState r (⟨ft, fl, fp, fc ++ qs.map parsedQuest⟩ :: rest) := by
  induction qs generalizing fc with
  | nil => simp
  | cons q qs' ih =>
    simp only [List.all_cons, Bool.and_eq_true] at hca
    obtain ⟨hq, hqs'⟩ := hca
    rcases q with ⟨t, lbl, ps, cs⟩
    obtain ⟨f, a, ht, hcs, hps, hfne, hf, hfs, ha, _⟩ :=
      canonQuest_fields t lbl ps cs hq
    subst ht; subst hcs; subst hps
    simp only [List.map_cons, List.foldl_cons]
    rw [famQuestLine_canon,
      parseLine_quest pats _ f a rfl rfl rfl hf hfne hfs ha]
    have hstep : addBlock (neutralState r (⟨ft, fl, fp, fc⟩ :: rest))
        (Block.mk BLOCK_QUEST_CALL (S "quest::" ++ (f ++ (S "(" ++ (a ++ S ")"))))
          [(S "quest_fn", PValue.str f), (S "args", PValue.str a)] []) =
        neutralState r (⟨ft, fl, fp, fc ++ [Block.mk BLOCK_QUEST_CALL
          (S "quest::" ++ (f ++ (S "(" ++ (a ++ S ")"))))
          [(S "quest_fn", PValue.str f), (S "args", PValue.str a)] []]⟩ :: rest) := rfl
    rw [hstep, ih hqs']
    rw [← parsedQuest_canon lbl f a]
    simp [List.append_assoc]

theorem famEventLines_canon (lbl w : Str) (cs : List Block) :
    famEventLines (Block.mk BLOCK_EVENT lbl
        [(S "event_name", PValue.str (S "EVENT_" ++ w))] cs) =
      (S "sub EVENT_" ++ (w ++ S " \x7b")) :: (cs.map famQuestLine ++ [[cbr], []]) := by
  show ((S "sub " ++ (S "EVENT_" ++ w)) ++ S " \x7b") ::
      (cs.map famQuestLine ++ [[cbr], []]) = _
  have h1 : (S "sub " ++ (S "EVENT_" ++ w)) ++ S " \x7b" =
      S "sub EVENT_" ++ (w ++ S " \x7b") := by
    simp only [← List.append_assoc]
    rfl
  rw [h1]

theorem parsedEvent_canon (lbl w : Str) (cs : List Block) :
    parsedEvent (Block.mk BLOCK_EVENT lbl
        [(S "event_name", PValue.str (S "EVENT_" ++ w))] cs) =
      Block.mk BLOCK_EVENT (S "EVENT_" ++ w)
        [(S "event_name", PValue.str (S "EVENT_" ++ w))] (cs.map parsedQuest) := rfl

theorem foldl_event_chunk (pats : List (PluginDef × List PAtom)) (b : Block)
    (hb : canonEvent b = true) (r : List Block) :
    List.foldl (parseLine pats) (neutralState r []) ((famEventLines b).dropLast) =
      neutralState (r ++ [parsedEvent b]) [] := by
  rcases b with ⟨t, lbl, ps, cs⟩
  obtain ⟨w, ht, hps, hne, hw, hcs⟩ := canonEvent_fields t lbl ps cs hb
  subst ht; subst hps
  rw [famEventLines_canon]
  have hdrop : ((S "sub EVENT_" ++ (w ++ S " \x7b")) ::
      (cs.map famQuestLine ++ [[cbr], []])).dropLast =
      (S "sub EVENT_" ++ (w ++ S " \x7b")) :: (cs.map famQuestLine ++ [[cbr]]) := by
    have hsh : (S "sub EVENT_" ++ (w ++ S " \x7b")) ::
        (cs.map famQuestLine ++ [[cbr], []]) =
        ((S "sub EVENT_" ++ (w ++ S " \x7b")) :: (cs.map famQuestLine ++ [[cbr]])) ++
          [[]] := by simp
    rw [hsh, List.dropLast_concat]
  rw [hdrop, List.foldl_cons,
    parseLine_event pats _ w rfl rfl rfl hw hne]
  have hpush : pushFrame (neutralState r []) ⟨BLOCK_EVENT, S "EVENT_" ++ w,
      [(S "event_name", PValue.str (S "EVENT_" ++ w))], []⟩ =
      neutralState r [⟨BLOCK_EVENT, S "EVENT_" ++ w,
        [(S "event_name", PValue.str (S "EVENT_" ++ w))], []⟩] := rfl
  rw [hpush, List.foldl_append, foldl_quest_lines pats cs hcs, List.foldl_cons,
    parseLine_close pats _ rfl rfl rfl, List.foldl_nil]
  rfl

theorem famEventLines_split (b : Block) (hb : canonEvent b = true) :
    famEventLines b = (famEventLines b).dropLast ++ [[]] := by
  rcases b with ⟨t, lbl, ps, cs⟩
  obtain ⟨w, ht, hps, hne, hw, hcs⟩ := canonEvent_fields t lbl ps cs hb
  subst ht; subst hps
  rw [famEventLines_canon]
  have hsh : (S "sub EVENT_" ++ (w ++ S " \x7b")) ::
      (cs.map famQuestLine ++ [[cbr], []]) =
      ((S "sub EVENT_" ++ (w ++ S " \x7b")) :: (cs.map famQuestLine ++ [[cbr]])) ++
        [[]] := by simp
  rw [hsh, List.dropLast_concat]

theorem foldl_event_full (pats : List (PluginDef × List PAtom)) (b : Block)
    (hb : canonEvent b = true) (r : List Block) :
    List.foldl (parseLine pats) (neutralState r []) (famEventLines b) =
      neutralState (r ++ [parsedEvent b]) [] := by
  rw [famEventLines_split b hb, List.foldl_append, foldl_event_chunk pats b hb r]
  simp only [List.foldl_cons, List.foldl_nil]
  exact parseLine_blank pats _ rfl rfl rfl

theorem famEventLines_ne_nil (b : Block) : famEventLines b ≠ [] := by
  rcases b with ⟨t, lbl, ps, cs⟩
  simp [famEventLines]

theorem famLines_ne_nil (b : Block) (t : List Block) : famLines (b :: t) ≠ [] := by
  simp only [famLines, List.flatMap_cons]
  intro hc
  rcases List.append_eq_nil.mp hc with ⟨h1, _⟩
  exact famEventLines_ne_nil b h1

theorem dropLast_append_ne (l1 l2 : List Str) (h : l2 ≠ []) :
    (l1 ++ l2).dropLast = l1 ++ l2.dropLast := by
  induction l1 with
  | nil => simp
  | cons x xs ih =>
    have hx : xs ++ l2 ≠ [] := by
      intro hc
      exact h (List.append_eq_nil.mp hc).2
    rw [List.cons_append, List.dropLast_cons_of_ne_nil hx, ih, List.cons_append]

theorem foldl_fam (pats : List (PluginDef × List PAtom)) (bs : List Block)
    (hbs : canonFam bs = true) (hne : bs ≠ []) (r : List Block) :
    List.foldl (parseLine pats) (neutralState r []) ((famLines bs).dropLast) =
      neutralState (r ++ bs.map parsedEvent) [] := by
  induction bs generalizing r with
  | nil => exact absurd rfl hne
  | cons b bs' ih =>
    simp only [canonFam, List.all_cons, Bool.and_eq_true] at hbs
    obtain ⟨hb, hbs'⟩ := hbs
    cases bs' with
    | nil =>
      simp only [famLines, List.flatMap_cons, List.flatMap_nil, List.append_nil]
      rw [foldl_event_chunk pats b hb r]
      simp
    | cons b2 t2 =>
      have hchain : famLines (b :: b2 :: t2) = famEventLines b ++ famLines (b2 :: t2) := by
        simp [famLines]
      rw [hchain, dropLast_append_ne _ _ (famLines_ne_nil b2 t2), List.foldl_append,
        foldl_event_full pats b hb r, ih hbs' (by simp) (r ++ [parsedEvent b])]
      simp

theorem splitlinesAux_step (c : Char) (hc : isLineBreak c = false) (acc rest : Str) :
    splitlinesAux acc (c :: rest) = splitlinesAux (c :: acc) rest := by
  conv_lhs => unfold splitlinesAux
  simp [hc]

theorem splitlinesAux_last (l : Str) (hl : ∀ c ∈ l, isLineBreak c = false) (acc : Str) :
    splitlinesAux acc (l ++ ['\n']) = [acc.reverse ++ l] := by
  induction l generalizing acc with
  | nil => simp [splitlinesAux, isLineBreak]
  | cons c cs ih =>
    rw [List.cons_append, splitlinesAux_step c (hl c (by simp)) acc]
    rw [ih (fun d hd => hl d (by simp [hd]))]
    simp

theorem splitlinesAux_mid (l : Str) (hl : ∀ c ∈ l, isLineBreak c = false) (acc t : Str)
    (ht : t ≠ []) :
    splitlinesAux acc (l ++ '\n' :: t) = (acc.reverse ++ l) :: splitlinesAux [] t := by
  induction l generalizing acc with
  | nil =>
    cases t with
    | nil => exact absurd rfl ht
    | cons x xs => simp [splitlinesAux, isLineBreak]
  | cons c cs ih =>
    rw [List.cons_append, splitlinesAux_step c (hl c (by simp)) acc]
    rw [ih (fun d hd => hl d (by simp [hd]))]
    simp

theorem joinLines_cons (l : Str) (ls : List Str) (h : ls ≠ []) :
    joinLines (l :: ls) = l ++ '\n' :: joinLines ls := by
  cases ls with
  | nil => exact absurd rfl h
  | cons b t => simp [joinLines, List.intercalate]

theorem pySplitlines_cons (l : Str) (hl : ∀ c ∈ l, isLineBreak c = false) (ls : List Str)
    (h : ls ≠ []) :
    pySplitlines (joinLines (l :: ls)) = l :: pySplitlines (joinLines ls) := by
  rw [joinLines_cons l ls h]
  cases hJ : joinLines ls with
  | nil =>
    have hne : l ++ '\n' :: ([] : Str) ≠ [] := by simp
    rw [pySplitlines, if_neg hne, splitlinesAux_last l hl []]
    simp [pySplitlines]
  | cons x xs =>
    have hne : l ++ '\n' :: (x :: xs) ≠ [] := by simp
    rw [pySplitlines, if_neg hne, splitlinesAux_mid l hl [] (x :: xs) (by simp)]
    simp [pySplitlines]

theorem pySplitlines_closed (ls : List Str) (hl : ∀ l ∈ ls, ∀ c ∈ l, isLineBreak c = false) :
    pySplitlines (joinLines (ls ++ [[]])) = ls := by
  induction ls with
  | nil => rfl
  | cons l t ih =>
    rw [List.cons_append,
      pySplitlines_cons l (hl l (by simp)) (t ++ [[]]) (by simp),
      ih (fun m hm => hl m (by simp [hm]))]

theorem wordchar_not_break (c : Char) (h : isWordChar c = true) :
    isLineBreak c = false := by
  by_contra hlb
  rw [Bool.not_eq_false] at hlb
  simp only [isLineBreak, Bool.or_eq_true, decide_eq_true_eq] at hlb
  rcases hlb with (((((((((h1 | h1) | h1) | h1) | h1) | h1) | h1) | h1) | h1) | h1) <;>
    (subst h1; exact absurd h (by decide))

theorem famQuestLine_no_break (q : Block) (hq : canonQuest q = true) :
    ∀ c ∈ famQuestLine q, isLineBreak c = false := by
  rcases q with ⟨t, lbl, ps, cs⟩
  obtain ⟨f, a, ht, hcs, hps, hfne, hf, hfs, ha, hnl⟩ :=
    canonQuest_fields t lbl ps cs hq
  subst ht; subst hcs; subst hps
  rw [famQuestLine_canon]
  intro c hc
  rcases List.mem_append.mp hc with h1 | h2
  · exact (by decide : ∀ c ∈ S "    quest::", isLineBreak c = false) c h1
  rcases List.mem_append.mp h2 with h3 | h4
  · exact wordchar_not_break c (List.all_eq_true.mp hf c h3)
  rcases List.mem_cons.mp h4 with h5 | h6
  · subst h5; decide
  rcases List.mem_append.mp h6 with h7 | h8
  · exact hnl c h7
  · exact (by decide : ∀ c ∈ S ");", isLineBreak c = false) c h8

theorem famEventLines_no_break (b : Block) (hb : canonEvent b = true) :
    ∀ l ∈ famEventLines b, ∀ c ∈ l, isLineBreak c = false := by
  rcases b with ⟨t, lbl, ps, cs⟩
  obtain ⟨w, ht, hps, hne, hw, hcs⟩ := canonEvent_fields t lbl ps cs hb
  subst ht; subst hps
  rw [famEventLines_canon]
  intro l hl
  rcases List.mem_cons.mp hl with h1 | h2
  · subst h1
    intro c hc
    rcases List.mem_append.mp hc with h3 | h4
    · exact (by decide : ∀ c ∈ S "sub EVENT_", isLineBreak c = false) c h3
    rcases List.mem_append.mp h4 with h5 | h6
    · exact wordchar_not_break c (List.all_eq_true.mp hw c h5)
    · exact (by decide : ∀ c ∈ S " \x7b", isLineBreak c = false) c h6
  rcases List.mem_append.mp h2 with h3 | h4
  · rcases List.mem_map.mp h3 with ⟨q, hqm, hql⟩
    subst hql
    exact famQuestLine_no_break q (List.all_eq_true.mp hcs q hqm)
  · rcases List.mem_cons.mp h4 with h5 | h6
    · subst h5; decide
    · rcases List.mem_cons.mp h6 with h7 | h8
      · subst h7; simp
      · simp at h8

theorem famLines_no_break (bs : List Block) (h : canonFam bs = true) :
    ∀ l ∈ famLines bs, ∀ c ∈ l, isLineBreak c = false := by
  intro l hl
  rcases List.mem_flatMap.mp hl with ⟨b, hbm, hbl⟩
  exact famEventLines_no_break b (List.all_eq_true.mp h b hbm) l hbl

theorem renderBlock_quest (plugins : PluginRegistry) (lbl f a : Str) (ind : Nat) :
    renderBlock plugins
        (.mk BLOCK_QUEST_CALL lbl [(S "quest_fn", .str f), (S "args", .str a)] []) ind =
      .ok [emitLine ind (S "quest::" ++ f ++ S "(" ++ a ++ S ");")] := by
  simp [renderBlock, getParam, assocGet, pyStrOfValue, S,
    BLOCK_QUEST_CALL, BLOCK_EVENT, BLOCK_NEXT, BLOCK_IF, BLOCK_WHILE, BLOCK_FOREACH]

theorem emit1_quest (f a : Str) :
    emitLine 1 (S "quest::" ++ f ++ S "(" ++ a ++ S ");") =
      S "    quest::" ++ f ++ S "(" ++ a ++ S ");" := by
  show S "    " ++ (S "quest::" ++ f ++ S "(" ++ a ++ S ");") = _
  simp only [← List.append_assoc]
  rfl

theorem renderBlocks_quests (plugins : PluginRegistry) (cs : List Block)
    (h : cs.all canonQuest = true) :
    renderBlocks plugins cs 1 = .ok (cs.map famQuestLine) := by
  induction cs with
  | nil => rfl
  | cons q t ih =>
    simp only [List.all_cons, Bool.and_eq_true] at h
    obtain ⟨hq, ht⟩ := h
    rcases q with ⟨bt, lbl, ps, cc⟩
    obtain ⟨f, a, hbt, hcc, hps, hfne, hf, hfs, ha, hnl⟩ :=
      canonQuest_fields bt lbl ps cc hq
    subst hbt; subst hcc; subst hps
    rw [renderBlocks_cons, renderBlock_quest, emit1_quest, ih ht]
    have hfq : famQuestLine (Block.mk BLOCK_QUEST_CALL lbl
        [(S "quest_fn", PValue.str f), (S "args", PValue.str a)] []) =
        S "    quest::" ++ f ++ S "(" ++ a ++ S ");" := rfl
    simp [hfq]

theorem renderBlock_event (plugins : PluginRegistry) (lbl w : Str) (cs : List Block)
    (hcs : cs.all canonQuest = true) :
    renderBlock plugins
        (.mk BLOCK_EVENT lbl [(S "event_name", .str (S "EVENT_" ++ w))] cs) 0 =
      .ok (famEventLines (.mk BLOCK_EVENT lbl
        [(S "event_name", .str (S "EVENT_" ++ w))] cs)) := by
  have hc : renderBlocks plugins cs (0 + 1) = .ok (cs.map famQuestLine) :=
    renderBlocks_quests plugins cs hcs
  unfold renderBlock
  rw [if_pos rfl, hc]
  rfl

theorem renderBlocks_fam (plugins : PluginRegistry) (bs : List Block)
    (h : canonFam bs = true) :
    renderBlocks plugins bs 0 = .ok (famLines bs) := by
  induction bs with
  | nil => rfl
  | cons b t ih =>
    simp only [canonFam, List.all_cons, Bool.and_eq_true] at h
    obtain ⟨hb, ht⟩ := h
    rcases b with ⟨bt, lbl, ps, cc⟩
    obtain ⟨w, hbt, hps, hne, hw, hcc⟩ := canonEvent_fields bt lbl ps cc hb
    subst hbt; subst hps
    rw [renderBlocks_cons, renderBlock_event plugins lbl w cc hcc, ih ht]
    simp [famLines]

theorem generate_canon (plugins : PluginRegistry) (bs : List Block)
    (h : canonFam bs = true) :
    generate_perl bs plugins Option.none =
      .ok (joinLines (headerLine :: [] :: famLines bs)) := by
  unfold generate_perl
  rw [renderBlocks_fam plugins bs h]
  rfl

theorem famLines_split (bs : List Block) (hne : bs ≠ []) (h : canonFam bs = true) :
    famLines bs = (famLines bs).dropLast ++ [[]] := by
  induction bs with
  | nil => exact absurd rfl hne
  | cons b t ih =>
    simp only [canonFam, List.all_cons, Bool.and_eq_true] at h
    obtain ⟨hb, ht⟩ := h
    cases t with
    | nil =>
      have hone : famLines [b] = famEventLines b := by simp [famLines]
      rw [hone]
      exact famEventLines_split b hb
    | cons b2 t2 =>
      have hchain : famLines (b :: b2 :: t2) =
          famEventLines b ++ famLines (b2 :: t2) := by simp [famLines]
      rw [hchain, dropLast_append_ne _ _ (famLines_ne_nil b2 t2), List.append_assoc,
        ← ih (by simp) ht]

theorem isPrefixOf_append_self (p x : Str) : p.isPrefixOf (p ++ x) = true := by
  induction p with
  | nil => simp [List.isPrefixOf]
  | cons c t ih => simp [List.isPrefixOf, ih]

theorem famQuestLine_parsedQuest (q : Block) :
    famQuestLine (parsedQuest q) = famQuestLine q := rfl

theorem famEventLines_parsedEvent (b : Block) :
    famEventLines (parsedEvent b) = famEventLines b := by
  show (S "sub " ++ evOf b ++ S " \x7b") ::
      ((b.children.map parsedQuest).map famQuestLine ++ [[cbr], []]) = _
  rw [List.map_map]
  rfl

theorem famLines_map_parsedEvent (bs : List Block) :
    famLines (bs.map parsedEvent) = famLines bs := by
  induction bs with
  | nil => rfl
  | cons b t ih =>
    simp only [famLines, List.map_cons, List.flatMap_cons] at *
    rw [famEventLines_parsedEvent, ih]

theorem canonQuest_parsedQuest (q : Block) (hq : canonQuest q = true) :
    canonQuest (parsedQuest q) = true := by
  rcases q with ⟨t, lbl, ps, cs⟩
  obtain ⟨f, a, ht, hcs, hps, hfne, hf, hfs, ha, hnl⟩ :=
    canonQuest_fields t lbl ps cs hq
  subst ht; subst hcs; subst hps
  rw [parsedQuest_canon]
  simp [canonQuest, wordCharsNE, hfne, hfs, ha, hf]
  exact fun c hc => hnl c hc

theorem canonEvent_parsedEvent (b : Block) (hb : canonEvent b = true) :
    canonEvent (parsedEvent b) = true := by
  rcases b with ⟨t, lbl, ps, cs⟩
  obtain ⟨w, ht, hps, hne, hw, hcs⟩ := canonEvent_fields t lbl ps cs hb
  subst ht; subst hps
  rw [parsedEvent_canon]
  have hdrop : (S "EVENT_" ++ w).drop 6 = w := List.drop_left (S "EVENT_") w
  simp [canonEvent, wordCharsNE, isPrefixOf_append_self, hdrop, hne, hw,
    List.all_eq_true]
  intro x hx
  exact canonQuest_parsedQuest x (List.all_eq_true.mp hcs x hx)

theorem canonFam_map_parsedEvent (bs : List Block) (h : canonFam bs = true) :
    canonFam (bs.map parsedEvent) = true := by
  simp only [canonFam, List.all_eq_true] at *
  intro x hx
  rcases List.mem_map.mp hx with ⟨b, hbm, hbe⟩
  subst hbe
  exact canonEvent_parsedEvent b (h b hbm)

theorem header_steps (pats : List (PluginDef × List PAtom)) :
    parseLine pats (parseLine pats initState headerLine) [] =
      neutralState [headerCommentBlock] [] := rfl

theorem parse_of_generated (reg : PluginRegistry) (bs : List Block) (hne : bs ≠ [])
    (h : canonFam bs = true) :
    parse_perl_to_blocks (joinLines (headerLine :: [] :: famLines bs)) reg =
      headerCommentBlock :: bs.map parsedEvent := by
  have hD := famLines_split bs hne h
  have hsplit : pySplitlines (joinLines (headerLine :: [] :: famLines bs)) =
      headerLine :: [] :: (famLines bs).dropLast := by
    conv_lhs => rw [hD]
    have hshape : headerLine :: [] :: ((famLines bs).dropLast ++ [[]]) =
        (headerLine :: [] :: (famLines bs).dropLast) ++ [[]] := by simp
    rw [hshape]
    apply pySplitlines_closed
    intro l hl
    rcases List.mem_cons.mp hl with h1 | h2
    · subst h1; decide
    rcases List.mem_cons.mp h2 with h3 | h4
    · subst h3; intro c hc; simp at hc
    · exact famLines_no_break bs h l ((List.dropLast_sublist (famLines bs)).subset h4)
  show finalRoots (flushComment ((pySplitlines
      (joinLines (headerLine :: [] :: famLines bs))).foldl
        (parseLine (buildPluginPatterns reg)) initState)) = _
  rw [hsplit, List.foldl_cons, List.foldl_cons,
    show (parseLine (buildPluginPatterns reg)
        (parseLine (buildPluginPatterns reg) initState headerLine) []) =
      neutralState [headerCommentBlock] [] from header_steps _,
    foldl_fam (buildPluginPatterns reg) bs h hne [headerCommentBlock]]
  rfl

theorem generate_again (reg : PluginRegistry) (bs : List Block)
    (h : canonFam bs = true) :
    generate_perl (headerCommentBlock :: bs.map parsedEvent) reg Option.none =
      .ok (joinLines (headerLine :: [] :: headerLine :: famLines bs)) := by
  unfold generate_perl
  rw [renderBlocks_cons]
  have hhdr : renderBlock reg headerCommentBlock 0 = .ok [headerLine] := rfl
  rw [hhdr, renderBlocks_fam reg _ (canonFam_map_parsedEvent bs h),
    famLines_map_parsedEvent]
  rfl

/-- C1 (amended): for a tree of canonical event handlers whose children are
canonical quest invocations (argument text free of every `str.splitlines`
line-boundary character), generation produces the header, a blank line and
the family lines; parsing that text and generating again reproduces the same
text except that the identification comment (re-parsed as a comment block) is
inserted once more after the leading blank line. -/
theorem C1_roundtrip_modulo_header (bs : List Block) (reg : PluginRegistry)
    (h : canonFam bs = true) :
    generate_perl bs reg Option.none =
        .ok (joinLines (headerLine :: [] :: famLines bs)) ∧
      generate_perl (parse_perl_to_blocks
          (joinLines (headerLine :: [] :: famLines bs)) reg) reg Option.none =
        .ok (joinLines (headerLine :: [] :: headerLine :: famLines bs)) := by
  refine ⟨generate_canon reg bs h, ?_⟩
  cases bs with
  | nil => rfl
  | cons b t =>
    rw [parse_of_generated reg (b :: t) (by simp) h]
    exact generate_again reg (b :: t) h

theorem C1_roundtrip_modulo_header_witness :
    canonFam [c1Event] = true ∧
    (generate_perl [c1Event] emptyRegistry Option.none =
        .ok (joinLines (headerLine :: [] :: famLines [c1Event])) ∧
      generate_perl (parse_perl_to_blocks
          (joinLines (headerLine :: [] :: famLines [c1Event])) emptyRegistry)
          emptyRegistry Option.none =
        .ok (joinLines (headerLine :: [] :: headerLine :: famLines [c1Event]))) :=
  ⟨by decide, C1_roundtrip_modulo_header [c1Event] emptyRegistry (by decide)⟩

end EQemu
